import Mathlib

/-!
Verification development for the comparative shortest-path engine
(`utils/algorithms.ts`, `utils/graph.ts`, `utils/MinHeap.ts`).

The TypeScript code is shallowly embedded:

* JS `Map`s are association lists (`List (String × α)`); iteration order is
  insertion order, `get` returns the first matching key, and `set` on an
  existing key overwrites in place.
* JS `Set`s are duplicate-free lists in insertion order.
* JS numbers are modelled as real numbers; `Infinity` is the `⊤` of
  `WithTop ℝ` where the code manipulates possibly-infinite distances.
* `async` wrappers, `performance.now()` timing and `console.log` calls are
  dropped; thrown `Error`s become an explicit error type carried by `Except`.
* unbounded `while` loops become fuel-indexed recursions returning `none`
  when the fuel runs out (or when the source would crash on an `undefined`
  node lookup); every theorem about a run supplies enough fuel.
-/

namespace Engine

/-- `{ lat, lng }` coordinate pair (JS object literals such as `startCoord`). -/
structure Coord where
  lat : ℚ
  lng : ℚ
deriving DecidableEq, Repr

/-- Graph node: `{ osmid, lat, lng }`. -/
structure Node where
  osmid : String
  lat : ℚ
  lng : ℚ
deriving DecidableEq, Repr

/-- Directed edge record `{ source, target, weight, blocked? }`;
a missing `blocked` field is the default `false`. -/
structure Edge where
  source : String
  target : String
  weight : ℝ
  blocked : Bool := false

/-- `{ nodes, edges, blockedNodes? }`; a missing `blockedNodes` set behaves
exactly like the empty set, so it is modelled by the default `[]`. -/
structure Graph where
  nodes : List (String × Node)
  edges : List (String × List Edge)
  blockedNodes : List String := []

/-- `Map.get`: first entry with the given key, if any. -/
def mget {α : Type} (m : List (String × α)) (k : String) : Option α :=
  (m.find? (fun p => p.1 == k)).map (fun p => p.2)

/-- `graph.edges.get(u) || []` / `?? []`. -/
def mgetL (m : List (String × List Edge)) (k : String) : List Edge :=
  (mget m k).getD []

/-- `Map.set`: overwrite the first entry with the key, else append. -/
def mset {α : Type} (m : List (String × α)) (k : String) (v : α) :
    List (String × α) :=
  match m with
  | [] => [(k, v)]
  | (k', v') :: rest =>
    if k' == k then (k, v) :: rest else (k', v') :: mset rest k v

/-- JS `Math.atan2 y x` (the cases realised by real arguments). -/
noncomputable def atan2 (y x : ℝ) : ℝ :=
  if 0 < x then Real.arctan (y / x)
  else if x < 0 then
    (if 0 ≤ y then Real.arctan (y / x) + Real.pi
     else Real.arctan (y / x) - Real.pi)
  else if 0 < y then Real.pi / 2
  else if y < 0 then -(Real.pi / 2)
  else 0

/-- `haversineDistance` from `algorithms.ts` (also exported by
`utils/graph.ts`'s import): great-circle distance in meters. -/
noncomputable def haversineDistance (point1 point2 : Coord) : ℝ :=
  let R : ℝ := 6371000
  let φ1 := (point1.lat : ℝ) * Real.pi / 180
  let φ2 := (point2.lat : ℝ) * Real.pi / 180
  let Δφ := ((point2.lat : ℝ) - (point1.lat : ℝ)) * Real.pi / 180
  let Δlng := ((point2.lng : ℝ) - (point1.lng : ℝ)) * Real.pi / 180
  let a := Real.sin (Δφ / 2) * Real.sin (Δφ / 2) +
    Real.cos φ1 * Real.cos φ2 * (Real.sin (Δlng / 2) * Real.sin (Δlng / 2))
  let c := 2 * atan2 (Real.sqrt a) (Real.sqrt (1 - a))
  R * c

@[simp] theorem atan2_zero_one : atan2 0 1 = 0 := by
  simp [atan2, Real.arctan_zero]

@[simp] theorem atan2_one_zero : atan2 1 0 = Real.pi / 2 := by
  simp [atan2]

theorem haversineDistance_self (c : Coord) : haversineDistance c c = 0 := by
  simp [haversineDistance]

theorem hav_0_180 : haversineDistance ⟨0, 0⟩ ⟨0, 180⟩ = 6371000 * Real.pi := by
  unfold haversineDistance
  norm_num
  ring

theorem hav_180_0 : haversineDistance ⟨0, 180⟩ ⟨0, 0⟩ = 6371000 * Real.pi := by
  unfold haversineDistance
  norm_num
  rw [show -(180 * Real.pi) / 180 / 2 = -(Real.pi / 2) by ring]
  rw [Real.sin_neg, Real.sin_pi_div_two]
  norm_num
  ring

theorem hav_0_90 : haversineDistance ⟨0, 0⟩ ⟨0, 90⟩ = 3185500 * Real.pi := by
  unfold haversineDistance
  norm_num
  rw [show (90 : ℝ) * Real.pi / 180 / 2 = Real.pi / 4 by ring]
  rw [Real.sin_pi_div_four]
  rw [show Real.sqrt 2 / 2 * (Real.sqrt 2 / 2) = 1 / 2 by
    rw [div_mul_div_comm, Real.mul_self_sqrt (by norm_num)]; norm_num]
  rw [show (1 : ℝ) - 1 / 2 = 1 / 2 by norm_num]
  have hpos : (0 : ℝ) < Real.sqrt (1 / 2) :=
    Real.sqrt_pos.mpr (by norm_num)
  rw [atan2, if_pos hpos, div_self (ne_of_gt hpos), Real.arctan_one]
  ring

theorem hav_90_0 : haversineDistance ⟨0, 90⟩ ⟨0, 0⟩ = 3185500 * Real.pi := by
  unfold haversineDistance
  norm_num
  rw [show -(90 * Real.pi) / 180 / 2 = -(Real.pi / 4) by ring]
  rw [Real.sin_neg, Real.sin_pi_div_four]
  rw [show -(Real.sqrt 2 / 2) * -(Real.sqrt 2 / 2) = 1 / 2 by
    rw [neg_mul_neg, div_mul_div_comm, Real.mul_self_sqrt (by norm_num)]; norm_num]
  rw [show (1 : ℝ) - 1 / 2 = 1 / 2 by norm_num]
  have hpos : (0 : ℝ) < Real.sqrt (1 / 2) :=
    Real.sqrt_pos.mpr (by norm_num)
  rw [atan2, if_pos hpos, div_self (ne_of_gt hpos), Real.arctan_one]
  ring

theorem hav_90_180 : haversineDistance ⟨0, 90⟩ ⟨0, 180⟩ = 3185500 * Real.pi := by
  unfold haversineDistance
  norm_num
  rw [show (90 : ℝ) * Real.pi / 180 / 2 = Real.pi / 4 by ring]
  rw [Real.sin_pi_div_four]
  rw [show Real.sqrt 2 / 2 * (Real.sqrt 2 / 2) = 1 / 2 by
    rw [div_mul_div_comm, Real.mul_self_sqrt (by norm_num)]; norm_num]
  rw [show (1 : ℝ) - 1 / 2 = 1 / 2 by norm_num]
  have hpos : (0 : ℝ) < Real.sqrt (1 / 2) :=
    Real.sqrt_pos.mpr (by norm_num)
  rw [atan2, if_pos hpos, div_self (ne_of_gt hpos), Real.arctan_one]
  ring

theorem hav_180_90 : haversineDistance ⟨0, 180⟩ ⟨0, 90⟩ = 3185500 * Real.pi := by
  unfold haversineDistance
  norm_num
  rw [show -(90 * Real.pi) / 180 / 2 = -(Real.pi / 4) by ring]
  rw [Real.sin_neg, Real.sin_pi_div_four]
  rw [show -(Real.sqrt 2 / 2) * -(Real.sqrt 2 / 2) = 1 / 2 by
    rw [neg_mul_neg, div_mul_div_comm, Real.mul_self_sqrt (by norm_num)]; norm_num]
  rw [show (1 : ℝ) - 1 / 2 = 1 / 2 by norm_num]
  have hpos : (0 : ℝ) < Real.sqrt (1 / 2) :=
    Real.sqrt_pos.mpr (by norm_num)
  rw [atan2, if_pos hpos, div_self (ne_of_gt hpos), Real.arctan_one]
  ring

theorem hav_same (a b : ℚ) : haversineDistance ⟨a, b⟩ ⟨a, b⟩ = 0 :=
  haversineDistance_self _

theorem D1_pos : (0 : ℝ) < 6371000 * Real.pi := by positivity

theorem D2_pos : (0 : ℝ) < 3185500 * Real.pi := by positivity

theorem D2_lt_D1 : (3185500 : ℝ) * Real.pi < 6371000 * Real.pi := by
  nlinarith [Real.pi_pos]

theorem D1_gt_three : (3 : ℝ) < 6371000 * Real.pi := by
  nlinarith [Real.pi_gt_three]

theorem D2_gt_three : (3 : ℝ) < 3185500 * Real.pi := by
  nlinarith [Real.pi_gt_three]

theorem D1_lt_1e8 : (6371000 : ℝ) * Real.pi < 100000000 := by
  nlinarith [Real.pi_lt_315]

/-- The `{lat, lng}` view of a node (nodes are passed directly to
`haversineDistance` in the source). -/
def Node.coord (n : Node) : Coord := ⟨n.lat, n.lng⟩

/-- The error conditions thrown by the pathfinding functions:
`notConnected` = "The graph is not fully connected.",
`nodeNotFound` = "Start or goal/end node not found",
`noPathFound` = "No path found (between start and end nodes)",
`negativeCycle` = "Graph contains a negative cycle". -/
inductive PathError where
  | notConnected
  | nodeNotFound
  | noPathFound
  | negativeCycle
deriving DecidableEq, Repr

/-- `PathfindingResult` (the wall-clock `time` field is not modelled; path
and visited coordinates are `[lng, lat]` pairs). -/
structure PathfindingResult where
  path : List (ℚ × ℚ)
  distance : ℝ
  visitedNodes : List (ℚ × ℚ)
  nodesVisited : ℕ
  edgesExplored : ℕ
  pathNodeCount : ℕ

/-- Accumulator pass of `findNearestNode`'s scan, carrying the current
`nearest` candidate and `minDistance`. -/
noncomputable def findNearestGo (point : Coord) (searchRadius : WithTop ℝ)
    (blockedNodes : List String) :
    List (String × Node) → Option Node → WithTop ℝ → Option Node
  | [], nearest, _ => nearest
  | (_, node) :: rest, nearest, minDistance =>
    if blockedNodes.contains node.osmid then
      findNearestGo point searchRadius blockedNodes rest nearest minDistance
    else
      let distance : WithTop ℝ := (haversineDistance point node.coord : ℝ)
      if distance < minDistance ∧ distance ≤ searchRadius then
        findNearestGo point searchRadius blockedNodes rest (some node) distance
      else
        findNearestGo point searchRadius blockedNodes rest nearest minDistance

/-- `findNearestNode(nodes, point, searchRadius = Infinity, blockedNodes?)`.
Every call site in `algorithms.ts` passes only the first two arguments, so
the radius is `⊤` and the blocked set is empty at every use. -/
noncomputable def findNearestNode (nodes : List (String × Node)) (point : Coord)
    (searchRadius : WithTop ℝ := ⊤) (blockedNodes : List String := []) :
    Option Node :=
  findNearestGo point searchRadius blockedNodes nodes none ⊤

/-- `PriorityQueue.enqueue`: the source pushes and re-sorts with a stable
comparator sort; on the always-sorted element array this is exactly ordered
insertion after all entries of smaller-or-equal priority. Entries are
`(priority, element)`. -/
noncomputable def pqEnqueue (l : List (ℝ × String)) (element : String)
    (priority : ℝ) : List (ℝ × String) :=
  match l with
  | [] => [(priority, element)]
  | (q, y) :: rest =>
    if q ≤ priority then (q, y) :: pqEnqueue rest element priority
    else (priority, element) :: (q, y) :: rest

/-- First edge of `u`'s adjacency list with the given target
(`edges.find(e => e.target === current)`). -/
def findEdge (g : Graph) (u v : String) : Option Edge :=
  (mgetL g.edges u).find? (fun e => e.target == v)

/-- DFS worker of `isGraphConnected`: stack head is the top (the source
pushes/pops at the array end); `none` = out of fuel. -/
def connGo (g : Graph) : ℕ → List String → List String → Option (List String)
  | 0, _, _ => none
  | _ + 1, visited, [] => some visited
  | fuel + 1, visited, current :: stack =>
    if visited.contains current then connGo g fuel visited stack
    else
      let visited1 := visited ++ [current]
      let pushes := (mgetL g.edges current).filter
        (fun e => !e.blocked && !(g.blockedNodes.contains e.target))
      connGo g fuel visited1 ((pushes.map (fun e => e.target)).reverse ++ stack)

/-- Fuel bound for the DFS: every reachable id appears among the node ids or
the edge targets, and each is processed at most once. -/
def connFuel (g : Graph) : ℕ :=
  let u := ((g.nodes.map (fun p => p.2.osmid)) ++
    ((g.edges.map (fun p => p.2)).flatten.map (fun e => e.target))).dedup
  1 + u.length + (u.map (fun x => (mgetL g.edges x).length)).sum +
    ((g.edges.map (fun p => p.2)).flatten.map (fun e => e.target)).length

/-- `isGraphConnected`: stack DFS from the first unblocked node over
non-blocked edges; the reached set must equal the unblocked node set. -/
def isGraphConnected (g : Graph) : Bool :=
  let unblockedNodes := (g.nodes.map (fun p => p.2)).filter
    (fun n => !(g.blockedNodes.contains n.osmid))
  match unblockedNodes with
  | [] => false
  | n0 :: _ =>
    match connGo g (connFuel g) [] [n0.osmid] with
    | some visited => visited.length == unblockedNodes.length
    | none => false

/-- Search state shared by the Dijkstra/A* loop. -/
structure DijkState where
  visited : List String
  visitedNodes : List (ℚ × ℚ)
  dist : List (String × WithTop ℝ)
  prev : List (String × Option String)
  pq : List (ℝ × String)
  edgesExplored : ℕ

/-- The relaxation loop body of `dijkstraPathfinding`: for each non-blocked
edge whose target is not a blocked node, relax and enqueue with priority
`alt` (plus the goal heuristic when `algorithmId === 'a-star'`).  A missing
distance entry behaves like the source's `undefined` comparison: always
false, so the edge is skipped. -/
noncomputable def relaxEdges (g : Graph) (goalNode : Node)
    (algorithmId : String) (current : String) :
    List Edge → DijkState → DijkState
  | [], s => s
  | e :: rest, s =>
    if e.blocked || g.blockedNodes.contains e.target then
      relaxEdges g goalNode algorithmId current rest s
    else
      match mget s.dist current, mget s.dist e.target with
      | some dc, some dt =>
        let alt : WithTop ℝ := dc + (e.weight : ℝ)
        if alt < dt then
          -- `alt < dt` forces `alt` (hence `dc`) finite, so `untop' 0` is
          -- the numeric value the source works with.
          let base : ℝ := alt.untop' 0
          let priority : ℝ :=
            if algorithmId == "a-star" then
              -- `graph.nodes.get(edge.target)!` succeeds: tracked distance
              -- keys are exactly the node-map keys.
              match mget g.nodes e.target with
              | some tn => base + haversineDistance tn.coord goalNode.coord
              | none => base
            else base
          relaxEdges g goalNode algorithmId current rest
            { s with dist := mset s.dist e.target alt,
                     prev := mset s.prev e.target (some current),
                     pq := pqEnqueue s.pq e.target priority }
        else relaxEdges g goalNode algorithmId current rest s
      | _, _ => relaxEdges g goalNode algorithmId current rest s

/-- Main loop of `dijkstraPathfinding`; `none` = out of fuel, or the
source's crash on `graph.nodes.get(current)!` for an untracked id. -/
noncomputable def dijkstraLoop (g : Graph) (goalNode : Node)
    (algorithmId : String) : ℕ → DijkState → Option DijkState
  | 0, _ => none
  | fuel + 1, s =>
    match s.pq with
    | [] => some s
    | (_, current) :: rest =>
      if s.visited.contains current then
        dijkstraLoop g goalNode algorithmId fuel { s with pq := rest }
      else
        match mget g.nodes current with
        | none => none
        | some node =>
          let s1 : DijkState :=
            { s with pq := rest,
                     visited := s.visited ++ [current],
                     visitedNodes := s.visitedNodes ++ [(node.lng, node.lat)] }
          if current == goalNode.osmid then some s1
          else
            let edges := mgetL g.edges current
            let s2 : DijkState :=
              { s1 with edgesExplored := s1.edgesExplored + edges.length }
            dijkstraLoop g goalNode algorithmId fuel
              (relaxEdges g goalNode algorithmId current edges s2)

/-- Path reconstruction loop shared verbatim by Dijkstra/A*, Bellman-Ford
and GBFS: walk the `previous` pointers from the goal, prepending coordinates
and accumulating the weight of the first matching edge of each hop.  A JS
falsy id (`null`/`''`) ends the walk. -/
noncomputable def walkLoop (g : Graph) (prevMap : List (String × Option String)) :
    ℕ → Option String → List (ℚ × ℚ) → ℝ → Option (List (ℚ × ℚ) × ℝ)
  | 0, _, _, _ => none
  | _ + 1, none, path, total => some (path, total)
  | fuel + 1, some id, path, total =>
    if id == "" then some (path, total)
    else
      match mget g.nodes id with
      | none => none
      | some node =>
        let path1 := (node.lng, node.lat) :: path
        match (mget prevMap id).getD none with
        | some p =>
          if p == "" then walkLoop g prevMap fuel none path1 total
          else
            let total1 := match findEdge g p id with
              | some e => total + e.weight
              | none => total
            walkLoop g prevMap fuel (some p) path1 total1
        | none => walkLoop g prevMap fuel none path1 total

/-- Fuel for the search loops: one step per queue entry, and each settled
vertex enqueues at most its out-degree. -/
def dijkstraFuel (g : Graph) : ℕ :=
  g.nodes.length + (g.edges.map (fun p => p.2.length)).sum + 2

/-- Fuel for the reconstruction walk: the `previous` chain visits pairwise
distinct tracked nodes. -/
def walkFuel (g : Graph) : ℕ := g.nodes.length + 2

/-- Initial Dijkstra/A* state: all distances `Infinity` except the resolved
start at `0`, which is enqueued with priority `0` (Dijkstra) or its goal
heuristic (A*). -/
noncomputable def initDijkState (g : Graph) (startNode goalNode : Node)
    (algorithmId : String) : DijkState :=
  { visited := []
    visitedNodes := []
    dist := mset (g.nodes.map (fun p => (p.1, (⊤ : WithTop ℝ))))
      startNode.osmid (0 : ℝ)
    prev := g.nodes.map (fun p => (p.1, (none : Option String)))
    pq := pqEnqueue [] startNode.osmid
      (if algorithmId == "a-star" then
        haversineDistance startNode.coord goalNode.coord
      else 0)
    edgesExplored := 0 }

/-- `dijkstraPathfinding(graph, startCoord, goalCoord, algorithmId)`.
The outer `Option` is the fuel/crash artefact of the embedding; the inner
`Except` carries the thrown errors of the source. -/
noncomputable def dijkstraPathfinding (g : Graph) (startCoord goalCoord : Coord)
    (algorithmId : String := "dijkstra") :
    Option (Except PathError PathfindingResult) :=
  if !isGraphConnected g then some (.error .notConnected)
  else
    match findNearestNode g.nodes startCoord, findNearestNode g.nodes goalCoord with
    | some startNode, some goalNode =>
      match dijkstraLoop g goalNode algorithmId (dijkstraFuel g)
        (initDijkState g startNode goalNode algorithmId) with
      | none => none
      | some s =>
        match walkLoop g s.prev (walkFuel g) (some goalNode.osmid) [] 0 with
        | none => none
        | some (path, totalDistance) =>
          if path.length == 0 then some (.error .noPathFound)
          else some (.ok
            { path := path
              distance := totalDistance / 1000
              visitedNodes := s.visitedNodes
              nodesVisited := s.visited.length
              edgesExplored := s.edgesExplored
              pathNodeCount := path.length })
    | _, _ => some (.error .nodeNotFound)

/-- `aStarPathfinding` forwards to `dijkstraPathfinding` with the
`'a-star'` algorithm id. -/
noncomputable def aStarPathfinding (g : Graph) (startCoord goalCoord : Coord) :
    Option (Except PathError PathfindingResult) :=
  dijkstraPathfinding g startCoord goalCoord "a-star"

/-- Bellman-Ford search state. -/
structure BFState where
  visited : List String
  visitedNodes : List (ℚ × ℚ)
  dist : List (String × WithTop ℝ)
  prev : List (String × Option String)
  edgesExplored : ℕ

/-- One Bellman-Ford edge relaxation (no blocked-edge or blocked-node check
appears in the source loop); returns the state and whether a change was
made.  Missing distance entries compare like `undefined`: never smaller. -/
noncomputable def bfRelaxEdge (g : Graph) (source : String) (e : Edge)
    (s : BFState) : BFState × Bool :=
  match mget s.dist source, mget s.dist e.target with
  | some ds, some dt =>
    let newDist : WithTop ℝ := ds + (e.weight : ℝ)
    if newDist < dt then
      let s1 : BFState :=
        { s with dist := mset s.dist e.target newDist,
                 prev := mset s.prev e.target (some source) }
      let s2 : BFState :=
        if s1.visited.contains e.target then s1
        else
          -- `graph.nodes.get(edge.target)!`: a tracked distance key is a
          -- node-map key in every graph of this development.
          match mget g.nodes e.target with
          | some tn =>
            { s1 with visited := s1.visited ++ [e.target],
                      visitedNodes := s1.visitedNodes ++ [(tn.lng, tn.lat)] }
          | none => s1
      ({ s2 with edgesExplored := s2.edgesExplored + 1 }, true)
    else ({ s with edgesExplored := s.edgesExplored + 1 }, false)
  | _, _ => ({ s with edgesExplored := s.edgesExplored + 1 }, false)

/-- Relax a whole adjacency list, accumulating the change flag. -/
noncomputable def bfRelaxList (g : Graph) (source : String) :
    List Edge → BFState × Bool → BFState × Bool
  | [], acc => acc
  | e :: rest, acc =>
    let r := bfRelaxEdge g source e acc.1
    bfRelaxList g source rest (r.1, acc.2 || r.2)

/-- One full pass over `graph.edges.entries()`. -/
noncomputable def bfPass (g : Graph) :
    List (String × List Edge) → BFState × Bool → BFState × Bool
  | [], acc => acc
  | (source, es) :: rest, acc =>
    bfPass g rest (bfRelaxList g source es acc)

/-- The `V - 1` relaxation passes with the early exit when a pass changes
nothing. -/
noncomputable def bfOuter (g : Graph) : ℕ → BFState → BFState
  | 0, s => s
  | i + 1, s =>
    match bfPass g g.edges (s, false) with
    | (s1, true) => bfOuter g i s1
    | (s1, false) => s1

/-- The negative-cycle check pass over one adjacency list: `none` means an
edge can still be relaxed (the source throws before counting that edge). -/
noncomputable def bfCheckEdges (dist : List (String × WithTop ℝ))
    (source : String) : List Edge → ℕ → Option ℕ
  | [], n => some n
  | e :: rest, n =>
    match mget dist source, mget dist e.target with
    | some ds, some dt =>
      if ds + (e.weight : ℝ) < dt then none
      else bfCheckEdges dist source rest (n + 1)
    | _, _ => bfCheckEdges dist source rest (n + 1)

/-- The negative-cycle check over all adjacency entries. -/
noncomputable def bfCheckAll (dist : List (String × WithTop ℝ)) :
    List (String × List Edge) → ℕ → Option ℕ
  | [], n => some n
  | (source, es) :: rest, n =>
    match bfCheckEdges dist source es n with
    | none => none
    | some n1 => bfCheckAll dist rest n1

/-- `bellmanFordPathfinding(graph, start, end)`.  The source performs no
connectivity precondition and no blocked-edge/blocked-node filtering; the
`!graph || !graph.nodes || !graph.edges` guard is vacuous for a structural
graph value and is not modelled. -/
noncomputable def bellmanFordPathfinding (g : Graph) (start end_ : Coord) :
    Option (Except PathError PathfindingResult) :=
  match findNearestNode g.nodes start, findNearestNode g.nodes end_ with
  | some startNode, some goalNode =>
    let s0 : BFState :=
      { visited := [startNode.osmid]
        visitedNodes := [(startNode.lng, startNode.lat)]
        dist := mset (g.nodes.map (fun p => (p.1, (⊤ : WithTop ℝ))))
          startNode.osmid (0 : ℝ)
        prev := g.nodes.map (fun p => (p.1, (none : Option String)))
        edgesExplored := 0 }
    let s1 := bfOuter g (g.nodes.length - 1) s0
    match bfCheckAll s1.dist g.edges s1.edgesExplored with
    | none => some (.error .negativeCycle)
    | some explored =>
      if (mget s1.dist goalNode.osmid).getD 0 = (⊤ : WithTop ℝ) then
        some (.error .noPathFound)
      else
        match walkLoop g s1.prev (walkFuel g) (some goalNode.osmid) [] 0 with
        | none => none
        | some (path, totalDistance) =>
          if path.length == 0 then some (.error .noPathFound)
          else some (.ok
            { path := path
              distance := totalDistance / 1000
              visitedNodes := s1.visitedNodes
              nodesVisited := s1.visited.length
              edgesExplored := explored
              pathNodeCount := path.length })
  | _, _ => some (.error .nodeNotFound)

/-- GBFS search state. -/
structure GbfsState where
  hScores : List (String × WithTop ℝ)
  prev : List (String × Option String)
  pq : List (ℝ × String)
  visited : List String
  visitedNodes : List (ℚ × ℚ)
  edgesExplored : ℕ

/-- The GBFS neighbour loop body: every unvisited neighbour is (re)scored
with the pure goal heuristic, its `previous` pointer overwritten, and it is
enqueued; no blocked-edge or blocked-node check appears in the source.
`none` models the source's crash on `graph.nodes.get(neighbor)!` for a
dangling target. -/
noncomputable def gbfsRelaxEdge (g : Graph) (endNode : Node) (current : String)
    (e : Edge) (s : GbfsState) : Option GbfsState :=
  let neighbor := e.target
  if s.visited.contains neighbor then some s
  else
    match mget g.nodes neighbor with
    | none => none
    | some nn =>
      let h := haversineDistance nn.coord endNode.coord
      some { s with hScores := mset s.hScores neighbor (h : ℝ),
                    prev := mset s.prev neighbor (some current),
                    pq := pqEnqueue s.pq neighbor h }

/-- Relax a whole adjacency list for GBFS. -/
noncomputable def gbfsRelaxList (g : Graph) (endNode : Node) (current : String) :
    List Edge → GbfsState → Option GbfsState
  | [], s => some s
  | e :: rest, s =>
    match gbfsRelaxEdge g endNode current e s with
    | none => none
    | some s1 => gbfsRelaxList g endNode current rest s1

/-- Main GBFS loop (`none` = out of fuel or a source crash). -/
noncomputable def gbfsLoop (g : Graph) (endNode : Node) :
    ℕ → GbfsState → Option GbfsState
  | 0, _ => none
  | fuel + 1, s =>
    match s.pq with
    | [] => some s
    | (_, current) :: rest =>
      -- `if (!current) break`: a falsy (empty) id ends the loop.
      if current == "" then some { s with pq := rest }
      else if s.visited.contains current then
        gbfsLoop g endNode fuel { s with pq := rest }
      else
        match mget g.nodes current with
        | none => none
        | some node =>
          let s1 : GbfsState :=
            { s with pq := rest,
                     visited := s.visited ++ [current],
                     visitedNodes := s.visitedNodes ++ [(node.lng, node.lat)] }
          if current == endNode.osmid then some s1
          else
            let edges := mgetL g.edges current
            let s2 : GbfsState :=
              { s1 with edgesExplored := s1.edgesExplored + edges.length }
            match gbfsRelaxList g endNode current edges s2 with
            | none => none
            | some s3 => gbfsLoop g endNode fuel s3

/-- `gbfsPathfinding(graph, start, end)`: pure-heuristic best-first search.
Note the start's coordinates are pushed onto `visitedNodes` once before the
loop and again when the start is popped. -/
noncomputable def gbfsPathfinding (g : Graph) (start end_ : Coord) :
    Option (Except PathError PathfindingResult) :=
  match findNearestNode g.nodes start, findNearestNode g.nodes end_ with
  | some startNode, some endNode =>
    let h0 := haversineDistance startNode.coord endNode.coord
    let s0 : GbfsState :=
      { hScores := mset (g.nodes.map (fun p => (p.1, (⊤ : WithTop ℝ))))
          startNode.osmid (h0 : ℝ)
        prev := g.nodes.map (fun p => (p.1, (none : Option String)))
        pq := pqEnqueue [] startNode.osmid h0
        visited := []
        visitedNodes := [(startNode.lng, startNode.lat)]
        edgesExplored := 0 }
    match gbfsLoop g endNode (dijkstraFuel g) s0 with
    | none => none
    | some s =>
      if !(s.visited.contains endNode.osmid) then some (.error .noPathFound)
      else
        match walkLoop g s.prev (walkFuel g) (some endNode.osmid) [] 0 with
        | none => none
        | some (path, totalDistance) =>
          some (.ok
            { path := path
              distance := totalDistance / 1000
              visitedNodes := s.visitedNodes
              nodesVisited := s.visited.length
              edgesExplored := s.edgesExplored
              pathNodeCount := path.length })
  | _, _ => some (.error .nodeNotFound)

namespace GraphBuild

/-- Raw edge feature consumed by the `Graph` constructor of
`utils/graph.ts`: `properties.u`, `properties.v`, and the result of
`parseFloat(properties.length)` (`none` models `NaN`). -/
structure RawEdge where
  u : String
  v : String
  length : Option ℝ

/-- The adjacency records stored by `utils/graph.ts`: `{ target, weight }`. -/
structure GEdge where
  target : String
  weight : ℝ

/-- `if (!edges.has(k)) edges.set(k, []); edges.get(k)!.push(x)`. -/
def mappend (m : List (String × List GEdge)) (k : String) (x : GEdge) :
    List (String × List GEdge) :=
  match m with
  | [] => [(k, [x])]
  | (k', v) :: rest =>
    if k' == k then (k', v ++ [x]) :: rest else (k', v) :: mappend rest k x

/-- The `isNaN(weight) || weight <= 0` branch of the constructor: substitute
the haversine distance when both endpoint coordinates are known, otherwise
skip the edge (with a console warning). -/
noncomputable def addRawEdgeSub (nodes : List (String × Coord))
    (adj : List (String × List GEdge)) (f : RawEdge) :
    List (String × List GEdge) :=
  match mget nodes f.u, mget nodes f.v with
  | some sourceCoord, some targetCoord =>
    let w := haversineDistance sourceCoord targetCoord
    mappend (mappend adj f.u ⟨f.v, w⟩) f.v ⟨f.u, w⟩
  | _, _ => adj

/-- One iteration of the constructor loop over `edgeList`. -/
noncomputable def addRawEdge (nodes : List (String × Coord))
    (adj : List (String × List GEdge)) (f : RawEdge) :
    List (String × List GEdge) :=
  match f.length with
  | some w =>
    if w ≤ 0 then addRawEdgeSub nodes adj f
    else mappend (mappend adj f.u ⟨f.v, w⟩) f.v ⟨f.u, w⟩
  | none => addRawEdgeSub nodes adj f

/-- The whole edge-construction loop of `new Graph(nodes, edgeList)`. -/
noncomputable def buildGraphEdges (nodes : List (String × Coord))
    (edgeList : List RawEdge) : List (String × List GEdge) :=
  edgeList.foldl (addRawEdge nodes) []

/-- Modelled from the spec (§4.1 `buildGraph`): the construction contract
rejects an edge that references an unknown node id, is a self-loop, or has a
non-finite or non-positive weight. -/
def specRejects (nodes : List (String × Coord)) (f : RawEdge) : Prop :=
  (mget nodes f.u).isNone ∨ (mget nodes f.v).isNone ∨ f.u = f.v ∨
    f.length = none ∨ (∃ w, f.length = some w ∧ w ≤ 0)

end GraphBuild

namespace MinHeap

variable {α : Type} [DecidableEq α]

/-- `bubbleUp` of `MinHeap.ts` with the moved element `e` held out of the
array; `lt x y` models `compare(x, y) < 0`. -/
def bubbleUpGo (lt : α → α → Bool) (e : α) : List α → ℕ → List α
  | l, 0 => l.set 0 e
  | l, i + 1 =>
    let pIdx := (i + 1 - 1) / 2
    let parent := l.getD pIdx e
    if lt e parent then bubbleUpGo lt e (l.set (i + 1) parent) pIdx
    else l.set (i + 1) e
termination_by _ i => i
decreasing_by omega

/-- `insert`: push then bubble the new element up from the last index. -/
def insert (lt : α → α → Bool) (l : List α) (x : α) : List α :=
  bubbleUpGo lt x (l ++ [x]) l.length

/-- `sinkDown` of `MinHeap.ts` with the moved element `e` held out of the
array.  The cursor strictly increases and the (constant) array length
bounds it, so `fuel = length + 1` makes the recursion exact. -/
def sinkDownGo (lt : α → α → Bool) (e : α) : ℕ → List α → ℕ → List α
  | 0, l, i => l.set i e
  | fuel + 1, l, i =>
    let len := l.length
    let li := 2 * i + 1
    let ri := 2 * i + 2
    let swap1 : Option ℕ :=
      if li < len then (if lt (l.getD li e) e then some li else none) else none
    let swap2 : Option ℕ :=
      if ri < len then
        match swap1 with
        | none => if lt (l.getD ri e) e then some ri else none
        | some si =>
          if lt (l.getD ri e) (l.getD si e) then some ri else some si
      else swap1
    match swap2 with
    | none => l.set i e
    | some j => sinkDownGo lt e fuel (l.set i (l.getD j e)) j

/-- `extractMin`: return the root, move the popped last element to the root
and sink it. -/
def extractMin (lt : α → α → Bool) (l : List α) : Option α × List α :=
  match l with
  | [] => (none, [])
  | x :: _ =>
    let popped := l.dropLast
    match l.getLast? with
    | none => (some x, popped)
    | some e =>
      if 0 < popped.length then
        (some x, sinkDownGo lt e (popped.length + 1) popped 0)
      else (some x, popped)

/-- `peek`. -/
def peek (l : List α) : Option α := l.head?

/-- `isEmpty`. -/
def isEmpty (l : List α) : Bool := l.isEmpty

/-- `remove(value)`: locate the first occurrence, move the popped last
element into its slot and re-heapify in the direction the comparator
dictates. -/
def remove (lt : α → α → Bool) (l : List α) (value : α) : List α :=
  match l.findIdx? (fun y => y == value) with
  | none => l
  | some i =>
    let popped := l.dropLast
    match l.getLast? with
    | none => l
    | some e =>
      if i ≠ popped.length then
        let l1 := popped.set i e
        if lt e value then bubbleUpGo lt e l1 i
        else sinkDownGo lt e (l1.length + 1) l1 i
      else popped

end MinHeap

/-- `Math.min(...)` over a possibly empty list (`Math.min()` is
`Infinity`). -/
noncomputable def listMin : List (WithTop ℝ) → WithTop ℝ
  | [] => ⊤
  | x :: rest => min x (listMin rest)

/-- `calculateKey(nodeId, startNode, km, g, rhs, heuristic, graph)` with the
heuristic fixed (as in the source) to the haversine distance from the start
node.  `graph.nodes.get(nodeId)!` is modelled by a default lookup; theorems
assume the id is tracked. -/
noncomputable def calculateKey (nodeId : String) (startNode : Node) (km : ℝ)
    (gm rhs : List (String × WithTop ℝ)) (graph : Graph) :
    WithTop ℝ × WithTop ℝ :=
  let node := (mget graph.nodes nodeId).getD ⟨"", 0, 0⟩
  let gValue := (mget gm nodeId).getD ⊤
  let rhsValue := (mget rhs nodeId).getD ⊤
  let h := haversineDistance startNode.coord node.coord
  let m := min gValue rhsValue
  (m + (h : ℝ) + (km : ℝ), m)

/-- The comparator closure handed to the `MinHeap` in
`dStarLitePathfinding` (its `km` argument is the literal `0`):
`dStarLt … a b` models `comparator(a, b) < 0`, reading the live `g` and
`rhs` maps.  `WithTop` faithfully reproduces the JS `Infinity` arithmetic of
the subtraction-based comparator, including the `NaN < 0 = false` case for
two infinite components. -/
noncomputable def dStarLt (startNode : Node)
    (gm rhs : List (String × WithTop ℝ)) (graph : Graph) (a b : String) :
    Bool :=
  let ka := calculateKey a startNode 0 gm rhs graph
  let kb := calculateKey b startNode 0 gm rhs graph
  if ka.1 ≠ kb.1 then decide (ka.1 < kb.1) else decide (ka.2 < kb.2)

/-- The replanner's mutable search state (`g`, `rhs`, and the open queue's
element array). -/
structure DStarState where
  gm : List (String × WithTop ℝ)
  rhs : List (String × WithTop ℝ)
  pq : List String

/-- `updateVertex(u)` from `dStarLitePathfinding`: recompute `rhs[u]` as the
minimum of `g[target] + weight` over the *whole* adjacency list of `u`
(the source applies no blocked filter here), remove `u` from the open
queue, and reinsert it iff `g[u] !== rhs[u]`.  The heap calls the live
comparator, which already sees the updated `rhs`. -/
noncomputable def updateVertex (graph : Graph) (startNode goalNode : Node)
    (u : String) (s : DStarState) : DStarState :=
  let rhs1 :=
    if u ≠ goalNode.osmid then
      let neighbors := mgetL graph.edges u
      mset s.rhs u
        (listMin (neighbors.map
          (fun e => ((mget s.gm e.target).getD ⊤) + (e.weight : ℝ))))
    else s.rhs
  let lt := dStarLt startNode s.gm rhs1 graph
  let q1 := MinHeap.remove lt s.pq u
  if (mget s.gm u).getD ⊤ ≠ (mget rhs1 u).getD ⊤ then
    { gm := s.gm, rhs := rhs1, pq := MinHeap.insert lt q1 u }
  else
    { gm := s.gm, rhs := rhs1, pq := q1 }

/-- Modelled from the spec (§4.4 `updateVertex`): the prescribed `rhs`
value, a minimum over the outgoing *non-blocked* edges only. -/
noncomputable def specRhsValue (graph : Graph)
    (gm : List (String × WithTop ℝ)) (u : String) : WithTop ℝ :=
  listMin (((mgetL graph.edges u).filter (fun e => !e.blocked)).map
    (fun e => ((mget gm e.target).getD ⊤) + (e.weight : ℝ)))

/-- Lexicographic (primary-then-secondary) strict order on key pairs, as
the spec words it. -/
def keyLexLt (ka kb : WithTop ℝ × WithTop ℝ) : Prop :=
  ka.1 < kb.1 ∨ (ka.1 = kb.1 ∧ ka.2 < kb.2)

/-! ### Concrete instances -/

/-- Graph with nodes `B`(0,180) then `A`(0,0) and the single directed edge
`B → A`: connected in the sense of `isGraphConnected` (DFS from `B`), yet
`B` is unreachable from `A`. -/
def g1 : Graph :=
  { nodes := [("B", ⟨"B", 0, 180⟩), ("A", ⟨"A", 0, 0⟩)]
    edges := [("B", [{ source := "B", target := "A", weight := 1 }])] }

theorem g1_connected : isGraphConnected g1 = true := by rfl

theorem wD1_pos :
    (0 : WithTop ℝ) < 6371000 * ((Real.pi : ℝ) : WithTop ℝ) := by
  have h : ((0 : ℝ) : WithTop ℝ) < ((6371000 * Real.pi : ℝ) : WithTop ℝ) :=
    WithTop.coe_lt_coe.mpr D1_pos
  push_cast at h
  exact h

theorem wD1_nonneg :
    (0 : WithTop ℝ) ≤ 6371000 * ((Real.pi : ℝ) : WithTop ℝ) := wD1_pos.le

theorem g1_resolve_start :
    findNearestNode g1.nodes ⟨0, 0⟩ = some ⟨"A", 0, 0⟩ := by
  simp [findNearestNode, findNearestGo, g1, Node.coord, hav_0_180, hav_same,
    wD1_pos, wD1_nonneg]

theorem g1_resolve_goal :
    findNearestNode g1.nodes ⟨0, 180⟩ = some ⟨"B", 0, 180⟩ := by
  simp [findNearestNode, findNearestGo, g1, Node.coord, hav_180_0, hav_same,
    wD1_pos, wD1_nonneg, not_lt.mpr wD1_nonneg]

/-- The full Dijkstra run on `g1` from `(0,0)` to `(0,180)`: the goal is
never reached (the queue empties with `distances[B] = Infinity`), yet the
call returns a one-node "path" consisting of the goal alone, with
`distance = 0` -- the `path.length === 0` guard can never fire because the
reconstruction always unshifts the goal node itself. -/
theorem dijk_g1_run :
    dijkstraPathfinding g1 ⟨0, 0⟩ ⟨0, 180⟩ "dijkstra" =
      some (.ok
        { path := [(180, 0)]
          distance := 0
          visitedNodes := [(0, 0)]
          nodesVisited := 1
          edgesExplored := 0
          pathNodeCount := 1 }) := by
  unfold dijkstraPathfinding
  rw [g1_connected, g1_resolve_start, g1_resolve_goal]
  simp [dijkstraLoop, initDijkState, relaxEdges, walkLoop, dijkstraFuel,
    walkFuel, g1, mset, mget, mgetL, findEdge, pqEnqueue, Node.coord]

theorem wD2_pos :
    (0 : WithTop ℝ) < 3185500 * ((Real.pi : ℝ) : WithTop ℝ) := by
  have h : ((0 : ℝ) : WithTop ℝ) < ((3185500 * Real.pi : ℝ) : WithTop ℝ) :=
    WithTop.coe_lt_coe.mpr D2_pos
  push_cast at h
  exact h

theorem wD2_nonneg :
    (0 : WithTop ℝ) ≤ 3185500 * ((Real.pi : ℝ) : WithTop ℝ) := wD2_pos.le

/-- Disconnected graph: `A ↔ B` linked, `C` isolated. -/
def gDis : Graph :=
  { nodes := [("A", ⟨"A", 0, 0⟩), ("B", ⟨"B", 0, 180⟩), ("C", ⟨"C", 0, 90⟩)]
    edges := [("A", [{ source := "A", target := "B", weight := 1 }]),
              ("B", [{ source := "B", target := "A", weight := 1 }])] }

theorem gDis_disconnected : isGraphConnected gDis = false := by rfl

theorem gDis_resolve_start :
    findNearestNode gDis.nodes ⟨0, 0⟩ = some ⟨"A", 0, 0⟩ := by
  simp [findNearestNode, findNearestGo, gDis, Node.coord, hav_same,
    hav_0_180, hav_0_90, wD1_nonneg, wD2_nonneg, not_lt.mpr wD1_nonneg,
    not_lt.mpr wD2_nonneg]

theorem gDis_resolve_goal :
    findNearestNode gDis.nodes ⟨0, 180⟩ = some ⟨"B", 0, 180⟩ := by
  simp [findNearestNode, findNearestGo, gDis, Node.coord, hav_same,
    hav_180_0, hav_180_90, wD1_pos, wD1_nonneg, wD2_nonneg,
    not_lt.mpr wD1_nonneg, not_lt.mpr wD2_nonneg]

theorem w1_lt_top : (1 : WithTop ℝ) < ⊤ := by
  norm_num [lt_top_iff_ne_top]

theorem w11_nlt_0 : ¬ ((1 : WithTop ℝ) + 1 < 0) := by norm_num

theorem w1_nlt_0 : ¬ ((1 : WithTop ℝ) < 0) := by norm_num

theorem w01_nlt_1 : ¬ ((0 : WithTop ℝ) + 1 < 1) := by norm_num

theorem w01_lt_top : ((0 : WithTop ℝ) + 1 < ⊤) := by norm_num

/-! Conditional step equations: the branch conditions of the loop bodies
compare (classically ordered) reals, so concrete runs are evaluated by
rewriting with these hypothesis-guarded equations, the hypotheses being
discharged by the simp discharger. -/

theorem bfRelaxEdge_new (g : Graph) (source : String) (e : Edge) (s : BFState)
    (ds dt : WithTop ℝ) (tn : Node)
    (h1 : mget s.dist source = some ds)
    (h2 : mget s.dist e.target = some dt)
    (hlt : ds + (e.weight : ℝ) < dt)
    (h3 : s.visited.contains e.target = false)
    (h4 : mget g.nodes e.target = some tn) :
    bfRelaxEdge g source e s =
      ({ visited := s.visited ++ [e.target]
         visitedNodes := s.visitedNodes ++ [(tn.lng, tn.lat)]
         dist := mset s.dist e.target (ds + (e.weight : ℝ))
         prev := mset s.prev e.target (some source)
         edgesExplored := s.edgesExplored + 1 }, true) := by
  unfold bfRelaxEdge
  rw [h1, h2]
  simp only [if_pos hlt, h3, h4]
  rfl

theorem bfRelaxEdge_seen (g : Graph) (source : String) (e : Edge) (s : BFState)
    (ds dt : WithTop ℝ)
    (h1 : mget s.dist source = some ds)
    (h2 : mget s.dist e.target = some dt)
    (hlt : ds + (e.weight : ℝ) < dt)
    (h3 : s.visited.contains e.target = true) :
    bfRelaxEdge g source e s =
      ({ visited := s.visited
         visitedNodes := s.visitedNodes
         dist := mset s.dist e.target (ds + (e.weight : ℝ))
         prev := mset s.prev e.target (some source)
         edgesExplored := s.edgesExplored + 1 }, true) := by
  unfold bfRelaxEdge
  rw [h1, h2]
  simp only [if_pos hlt, h3]
  rfl

theorem bfRelaxEdge_skip (g : Graph) (source : String) (e : Edge) (s : BFState)
    (ds dt : WithTop ℝ)
    (h1 : mget s.dist source = some ds)
    (h2 : mget s.dist e.target = some dt)
    (hge : ¬ ds + (e.weight : ℝ) < dt) :
    bfRelaxEdge g source e s =
      ({ s with edgesExplored := s.edgesExplored + 1 }, false) := by
  unfold bfRelaxEdge
  rw [h1, h2]
  simp only [if_neg hge]

theorem bfCheckEdges_step (dist : List (String × WithTop ℝ)) (source : String)
    (e : Edge) (rest : List Edge) (n : ℕ) (ds dt : WithTop ℝ)
    (h1 : mget dist source = some ds)
    (h2 : mget dist e.target = some dt)
    (hge : ¬ ds + (e.weight : ℝ) < dt) :
    bfCheckEdges dist source (e :: rest) n =
      bfCheckEdges dist source rest (n + 1) := by
  conv_lhs => rw [bfCheckEdges]
  rw [h1, h2]
  simp only [if_neg hge]

theorem pqEnqueue_le (q p : ℝ) (y x : String) (rest : List (ℝ × String))
    (h : q ≤ p) :
    pqEnqueue ((q, y) :: rest) x p = (q, y) :: pqEnqueue rest x p := by
  conv_lhs => rw [pqEnqueue]
  simp only [if_pos h]

theorem pqEnqueue_gt (q p : ℝ) (y x : String) (rest : List (ℝ × String))
    (h : ¬ q ≤ p) :
    pqEnqueue ((q, y) :: rest) x p = (p, x) :: (q, y) :: rest := by
  conv_lhs => rw [pqEnqueue]
  simp only [if_neg h]

theorem relaxEdges_blocked (g : Graph) (goalNode : Node) (algorithmId : String)
    (current : String) (e : Edge) (rest : List Edge) (s : DijkState)
    (h : (e.blocked || g.blockedNodes.contains e.target) = true) :
    relaxEdges g goalNode algorithmId current (e :: rest) s =
      relaxEdges g goalNode algorithmId current rest s := by
  conv_lhs => rw [relaxEdges]
  rw [if_pos h]

theorem relaxEdges_update (g : Graph) (goalNode : Node) (algorithmId : String)
    (current : String) (e : Edge) (rest : List Edge) (s : DijkState)
    (dc dt : WithTop ℝ)
    (hb : (e.blocked || g.blockedNodes.contains e.target) = false)
    (h1 : mget s.dist current = some dc)
    (h2 : mget s.dist e.target = some dt)
    (hlt : dc + (e.weight : ℝ) < dt) :
    relaxEdges g goalNode algorithmId current (e :: rest) s =
      relaxEdges g goalNode algorithmId current rest
        { s with dist := mset s.dist e.target (dc + (e.weight : ℝ)),
                 prev := mset s.prev e.target (some current),
                 pq := pqEnqueue s.pq e.target
                   ((dc + (e.weight : ℝ)).untop' 0 +
                     (if algorithmId == "a-star" then
                       match mget g.nodes e.target with
                       | some tn => haversineDistance tn.coord goalNode.coord
                       | none => 0
                     else 0)) } := by
  conv_lhs => rw [relaxEdges]
  rw [h1, h2]
  simp only [hb, Bool.false_eq_true, if_false, if_pos hlt]
  cases halg : (algorithmId == "a-star") with
  | true =>
    cases hmn : mget g.nodes e.target with
    | none => simp [hmn, halg]
    | some tn => simp [hmn, halg]
  | false => simp [halg]

theorem relaxEdges_noupdate (g : Graph) (goalNode : Node) (algorithmId : String)
    (current : String) (e : Edge) (rest : List Edge) (s : DijkState)
    (dc dt : WithTop ℝ)
    (hb : (e.blocked || g.blockedNodes.contains e.target) = false)
    (h1 : mget s.dist current = some dc)
    (h2 : mget s.dist e.target = some dt)
    (hge : ¬ dc + (e.weight : ℝ) < dt) :
    relaxEdges g goalNode algorithmId current (e :: rest) s =
      relaxEdges g goalNode algorithmId current rest s := by
  conv_lhs => rw [relaxEdges]
  rw [h1, h2]
  simp only [hb, Bool.false_eq_true, if_false, if_neg hge]

theorem relaxEdges_nil (g : Graph) (gn : Node) (alg cur : String)
    (s : DijkState) : relaxEdges g gn alg cur [] s = s := rfl

theorem bf_gDis_pass1 :
    bfPass gDis gDis.edges
      ({ visited := ["A"], visitedNodes := [(0 : ℚ × ℚ)],
         dist := [("A", 0), ("B", ⊤), ("C", ⊤)],
         prev := [("A", none), ("B", none), ("C", none)],
         edgesExplored := 0 }, false) =
      ({ visited := ["A", "B"], visitedNodes := [(0 : ℚ × ℚ), (180, 0)],
         dist := [("A", 0), ("B", 1), ("C", ⊤)],
         prev := [("A", none), ("B", some "A"), ("C", none)],
         edgesExplored := 2 }, true) := by
  simp [bfPass, bfRelaxList, bfRelaxEdge_new, bfRelaxEdge_skip, gDis, mget,
    mset, Node.coord, w1_lt_top, w11_nlt_0, w1_nlt_0, w01_lt_top]

theorem bf_gDis_pass2 :
    bfPass gDis gDis.edges
      ({ visited := ["A", "B"], visitedNodes := [(0 : ℚ × ℚ), (180, 0)],
         dist := [("A", 0), ("B", 1), ("C", ⊤)],
         prev := [("A", none), ("B", some "A"), ("C", none)],
         edgesExplored := 2 }, false) =
      ({ visited := ["A", "B"], visitedNodes := [(0 : ℚ × ℚ), (180, 0)],
         dist := [("A", 0), ("B", 1), ("C", ⊤)],
         prev := [("A", none), ("B", some "A"), ("C", none)],
         edgesExplored := 4 }, false) := by
  simp [bfPass, bfRelaxList, bfRelaxEdge_skip, gDis, mget,
    mset, Node.coord, w1_lt_top, w11_nlt_0, w1_nlt_0, w01_nlt_1]

theorem bf_gDis_outer :
    bfOuter gDis 2
      { visited := ["A"], visitedNodes := [(0 : ℚ × ℚ)],
        dist := [("A", 0), ("B", ⊤), ("C", ⊤)],
        prev := [("A", none), ("B", none), ("C", none)],
        edgesExplored := 0 } =
      { visited := ["A", "B"], visitedNodes := [(0 : ℚ × ℚ), (180, 0)],
        dist := [("A", 0), ("B", 1), ("C", ⊤)],
        prev := [("A", none), ("B", some "A"), ("C", none)],
        edgesExplored := 4 } := by
  simp [bfOuter, bf_gDis_pass1, bf_gDis_pass2]

theorem bf_gDis_check :
    bfCheckAll [("A", 0), ("B", 1), ("C", ⊤)] gDis.edges 4 = some 6 := by
  simp [bfCheckAll, bfCheckEdges, bfCheckEdges_step, gDis, mget, w11_nlt_0,
    w1_nlt_0, w01_nlt_1]

theorem bf_gDis_walk :
    walkLoop gDis [("A", none), ("B", some "A"), ("C", none)] (walkFuel gDis)
      (some "B") [] 0 = some ([(0 : ℚ × ℚ), (180, 0)], 1) := by
  simp [walkLoop, walkFuel, gDis, mget, mgetL, findEdge]

theorem gDis_len : gDis.nodes.length = 3 := by rfl

theorem gDis_dist0 :
    mset (gDis.nodes.map (fun p => (p.1, (⊤ : WithTop ℝ)))) "A"
      (0 : WithTop ℝ) = [("A", 0), ("B", ⊤), ("C", ⊤)] := by
  simp [gDis, mset]

theorem gDis_prev0 :
    gDis.nodes.map (fun p => (p.1, (none : Option String))) =
      [("A", none), ("B", none), ("C", none)] := by
  simp [gDis]

/-- Bellman-Ford runs to completion on the disconnected graph `gDis`
(no connectivity precondition appears in its source). -/
theorem bf_gDis_run :
    bellmanFordPathfinding gDis ⟨0, 0⟩ ⟨0, 180⟩ =
      some (.ok
        { path := [(0, 0), (180, 0)]
          distance := 1 / 1000
          visitedNodes := [(0, 0), (180, 0)]
          nodesVisited := 2
          edgesExplored := 6
          pathNodeCount := 2 }) := by
  unfold bellmanFordPathfinding
  rw [gDis_resolve_start, gDis_resolve_goal]
  simp [gDis_len, gDis_dist0, gDis_prev0, bf_gDis_outer, bf_gDis_check,
    bf_gDis_walk, mget, WithTop.one_ne_top]

/-- GBFS also runs to completion on the disconnected graph `gDis`. -/
theorem gbfs_gDis_run :
    gbfsPathfinding gDis ⟨0, 0⟩ ⟨0, 180⟩ =
      some (.ok
        { path := [(0, 0), (180, 0)]
          distance := 1 / 1000
          visitedNodes := [(0, 0), (0, 0), (180, 0)]
          nodesVisited := 2
          edgesExplored := 1
          pathNodeCount := 2 }) := by
  unfold gbfsPathfinding
  rw [gDis_resolve_start, gDis_resolve_goal]
  simp [gbfsLoop, gbfsRelaxList, gbfsRelaxEdge, pqEnqueue, dijkstraFuel,
    gDis, mset, mget, mgetL, findEdge, walkLoop, walkFuel, Node.coord,
    hav_0_180, hav_180_0, hav_same]

/-! ### Claim C3 -/

/-- Two-node graph whose *every* edge carries `blocked: true`. -/
def gBlk : Graph :=
  { nodes := [("A", ⟨"A", 0, 0⟩), ("B", ⟨"B", 0, 180⟩)]
    edges := [("A", [{ source := "A", target := "B", weight := 1,
                       blocked := true }]),
              ("B", [{ source := "B", target := "A", weight := 1,
                       blocked := true }])] }

theorem gBlk_resolve_start :
    findNearestNode gBlk.nodes ⟨0, 0⟩ = some ⟨"A", 0, 0⟩ := by
  simp [findNearestNode, findNearestGo, gBlk, Node.coord, hav_same,
    hav_0_180, wD1_nonneg, not_lt.mpr wD1_nonneg]

theorem gBlk_resolve_goal :
    findNearestNode gBlk.nodes ⟨0, 180⟩ = some ⟨"B", 0, 180⟩ := by
  simp [findNearestNode, findNearestGo, gBlk, Node.coord, hav_same,
    hav_180_0, wD1_pos, wD1_nonneg, not_lt.mpr wD1_nonneg]

theorem bf_gBlk_pass :
    bfPass gBlk gBlk.edges
      ({ visited := ["A"], visitedNodes := [(0 : ℚ × ℚ)],
         dist := [("A", 0), ("B", ⊤)],
         prev := [("A", none), ("B", none)],
         edgesExplored := 0 }, false) =
      ({ visited := ["A", "B"], visitedNodes := [(0 : ℚ × ℚ), (180, 0)],
         dist := [("A", 0), ("B", 1)],
         prev := [("A", none), ("B", some "A")],
         edgesExplored := 2 }, true) := by
  simp [bfPass, bfRelaxList, bfRelaxEdge_new, bfRelaxEdge_skip, gBlk, mget,
    mset, Node.coord, w1_lt_top, w11_nlt_0, w1_nlt_0, w01_lt_top]

theorem bf_gBlk_outer :
    bfOuter gBlk 1
      { visited := ["A"], visitedNodes := [(0 : ℚ × ℚ)],
        dist := [("A", 0), ("B", ⊤)],
        prev := [("A", none), ("B", none)],
        edgesExplored := 0 } =
      { visited := ["A", "B"], visitedNodes := [(0 : ℚ × ℚ), (180, 0)],
        dist := [("A", 0), ("B", 1)],
        prev := [("A", none), ("B", some "A")],
        edgesExplored := 2 } := by
  simp [bfOuter, bf_gBlk_pass]

theorem bf_gBlk_check :
    bfCheckAll [("A", 0), ("B", 1)] gBlk.edges 2 = some 4 := by
  simp [bfCheckAll, bfCheckEdges, bfCheckEdges_step, gBlk, mget, w11_nlt_0,
    w1_nlt_0, w01_nlt_1]

theorem bf_gBlk_walk :
    walkLoop gBlk [("A", none), ("B", some "A")] (walkFuel gBlk)
      (some "B") [] 0 = some ([(0 : ℚ × ℚ), (180, 0)], 1) := by
  simp [walkLoop, walkFuel, gBlk, mget, mgetL, findEdge]

theorem gBlk_len : gBlk.nodes.length = 2 := by rfl

theorem gBlk_dist0 :
    mset (gBlk.nodes.map (fun p => (p.1, (⊤ : WithTop ℝ)))) "A"
      (0 : WithTop ℝ) = [("A", 0), ("B", ⊤)] := by
  simp [gBlk, mset]

theorem gBlk_prev0 :
    gBlk.nodes.map (fun p => (p.1, (none : Option String))) =
      [("A", none), ("B", none)] := by
  simp [gBlk]

/-- Bellman-Ford relaxes the blocked edge `A → B` of `gBlk` and returns a
path using it. -/
theorem bf_gBlk_run :
    bellmanFordPathfinding gBlk ⟨0, 0⟩ ⟨0, 180⟩ =
      some (.ok
        { path := [(0, 0), (180, 0)]
          distance := 1 / 1000
          visitedNodes := [(0, 0), (180, 0)]
          nodesVisited := 2
          edgesExplored := 4
          pathNodeCount := 2 }) := by
  unfold bellmanFordPathfinding
  rw [gBlk_resolve_start, gBlk_resolve_goal]
  simp [gBlk_len, gBlk_dist0, gBlk_prev0, bf_gBlk_outer, bf_gBlk_check,
    bf_gBlk_walk, mget, WithTop.one_ne_top]

/-- GBFS explores the blocked edge `A → B` of `gBlk` and returns a path
using it. -/
theorem gbfs_gBlk_run :
    gbfsPathfinding gBlk ⟨0, 0⟩ ⟨0, 180⟩ =
      some (.ok
        { path := [(0, 0), (180, 0)]
          distance := 1 / 1000
          visitedNodes := [(0, 0), (0, 0), (180, 0)]
          nodesVisited := 2
          edgesExplored := 1
          pathNodeCount := 2 }) := by
  unfold gbfsPathfinding
  rw [gBlk_resolve_start, gBlk_resolve_goal]
  simp [gbfsLoop, gbfsRelaxList, gbfsRelaxEdge, pqEnqueue, dijkstraFuel,
    gBlk, mset, mget, mgetL, findEdge, walkLoop, walkFuel, Node.coord,
    hav_0_180, hav_180_0, hav_same]

/-- C3 counterexample: every edge of `gBlk` is blocked, yet Bellman-Ford
and GBFS both compute their distances over those blocked edges and return
paths that traverse them. -/
theorem C3_counterexample :
    (gBlk.edges.map Prod.snd).flatten.all (fun e => e.blocked) = true ∧
    bellmanFordPathfinding gBlk ⟨0, 0⟩ ⟨0, 180⟩ =
      some (.ok
        { path := [(0, 0), (180, 0)]
          distance := 1 / 1000
          visitedNodes := [(0, 0), (180, 0)]
          nodesVisited := 2
          edgesExplored := 4
          pathNodeCount := 2 }) ∧
    gbfsPathfinding gBlk ⟨0, 0⟩ ⟨0, 180⟩ =
      some (.ok
        { path := [(0, 0), (180, 0)]
          distance := 1 / 1000
          visitedNodes := [(0, 0), (0, 0), (180, 0)]
          nodesVisited := 2
          edgesExplored := 1
          pathNodeCount := 2 }) :=
  ⟨by rfl, bf_gBlk_run, gbfs_gBlk_run⟩

/-- The Dijkstra/A* relaxation step is unchanged when the blocked edges
and blocked-target edges are removed from the adjacency list first: it
skips exactly those edges. -/
theorem relaxEdges_filter (g : Graph) (gn : Node) (alg cur : String)
    (edges : List Edge) :
    ∀ s, relaxEdges g gn alg cur edges s =
      relaxEdges g gn alg cur
        (edges.filter
          (fun e => !(e.blocked || g.blockedNodes.contains e.target))) s := by
  induction edges with
  | nil => intro s; rfl
  | cons e rest ih =>
    intro s
    cases hb : (e.blocked || g.blockedNodes.contains e.target) with
    | true =>
      rw [relaxEdges_blocked g gn alg cur e rest s hb]
      simp only [List.filter_cons, hb, Bool.not_true, ite_false,
        Bool.false_eq_true]
      exact ih s
    | false =>
      simp only [List.filter_cons, hb, Bool.not_false, ite_true]
      conv_lhs => rw [relaxEdges]
      conv_rhs => rw [relaxEdges]
      simp only [hb, Bool.false_eq_true, if_false]
      cases h1 : mget s.dist cur with
      | none =>
        cases h2 : mget s.dist e.target with
        | none => exact ih s
        | some dt => exact ih s
      | some dc =>
        cases h2 : mget s.dist e.target with
        | none => exact ih s
        | some dt => exact if_congr Iff.rfl (ih _) (ih s)

/-- C3 (amended): the Dijkstra/A* relaxation loop skips exactly the edges
that are blocked or lead into a blocked node (relaxing a list is relaxing
its non-blocked sublist), while the Bellman-Ford and GBFS relaxation steps
are *independent* of the edge's blocked flag: they behave identically on
the same edge with the flag flipped, so neither performs any blocked
filtering. -/
theorem C3_amended (g : Graph) (goalNode endNode : Node)
    (alg current source : String) (edges : List Edge) (s : DijkState)
    (e : Edge) (b : Bool) (t : BFState) (u : GbfsState) :
    relaxEdges g goalNode alg current edges s =
      relaxEdges g goalNode alg current
        (edges.filter
          (fun e => !(e.blocked || g.blockedNodes.contains e.target))) s ∧
    bfRelaxEdge g source { e with blocked := b } t = bfRelaxEdge g source e t ∧
    gbfsRelaxEdge g endNode current { e with blocked := b } u =
      gbfsRelaxEdge g endNode current e u :=
  ⟨relaxEdges_filter g goalNode alg current edges s, rfl, rfl⟩

/-! ### Claim C6 -/

/-- Overwriting position `i` trades the old element for the new one, as
multisets. -/
theorem setMultiset {α : Type} (l : List α) :
    ∀ (i : ℕ) (hi : i < l.length) (a : α),
      ((l.set i a : List α) : Multiset α) + {l[i]} =
        (l : Multiset α) + {a} := by
  induction l with
  | nil =>
    intro i hi a
    simp at hi
  | cons b t ih =>
    intro i hi a
    cases i with
    | zero =>
      simp only [List.set_cons_zero, List.getElem_cons_zero]
      rw [← Multiset.cons_coe, ← Multiset.cons_coe, ← Multiset.singleton_add,
        ← Multiset.singleton_add]
      abel
    | succ n =>
      simp only [List.set_cons_succ, List.getElem_cons_succ]
      rw [← Multiset.cons_coe, ← Multiset.cons_coe, ← Multiset.singleton_add,
        ← Multiset.singleton_add, add_assoc, add_assoc,
        ih n (by simp at hi; omega) a]

theorem cancelAux {α : Type} {B L S : Multiset α} {x y e : α}
    (h1 : B + {y} = S + {e}) (h2 : S + {x} = L + {y}) :
    B + {x} = L + {e} := by
  have h : B + {x} + {y} = L + {e} + {y} := by
    calc B + {x} + {y} = B + {y} + {x} := by abel
    _ = S + {e} + {x} := by rw [h1]
    _ = S + {x} + {e} := by abel
    _ = L + {y} + {e} := by rw [h2]
    _ = L + {e} + {y} := by abel
  exact add_right_cancel h

/-- `bubbleUp` permutes the array and lands the held-out element: as a
multiset it replaces the element at the start index with it. -/
theorem bubbleUpGo_multiset {α : Type} (lt : α → α → Bool) (e : α) :
    ∀ (i : ℕ) (l : List α) (hi : i < l.length),
      ((MinHeap.bubbleUpGo lt e l i : List α) : Multiset α) + {l[i]} =
        (l : Multiset α) + {e} := by
  intro i
  induction i using Nat.strong_induction_on with
  | _ i ih =>
    intro l hi
    cases i with
    | zero =>
      simp only [MinHeap.bubbleUpGo]
      exact setMultiset l 0 hi e
    | succ j =>
      simp only [MinHeap.bubbleUpGo]
      by_cases hlt : lt e (l.getD ((j + 1 - 1) / 2) e) = true
      · rw [if_pos hlt]
        have hp2 : (j + 1 - 1) / 2 < l.length := by omega
        have hps : (j + 1 - 1) / 2 <
            (l.set (j + 1) (l.getD ((j + 1 - 1) / 2) e)).length := by
          simpa using hp2
        have h1 := ih ((j + 1 - 1) / 2) (by omega)
          (l.set (j + 1) (l.getD ((j + 1 - 1) / 2) e)) hps
        have hg : (l.set (j + 1) (l.getD ((j + 1 - 1) / 2) e))[(j + 1 - 1) / 2] =
            l[(j + 1 - 1) / 2] := List.getElem_set_ne (by omega) hps
        rw [hg] at h1
        rw [List.getD_eq_getElem l e hp2] at h1 ⊢
        exact cancelAux h1 (setMultiset l (j + 1) hi (l[(j + 1 - 1) / 2]))
      · rw [if_neg hlt]
        exact setMultiset l (j + 1) hi e

/-- Same fact for `sinkDown` (the cursor only moves to in-range child
indices). -/
theorem sinkDownGo_multiset {α : Type} (lt : α → α → Bool) (e : α) :
    ∀ (fuel : ℕ) (l : List α) (i : ℕ) (hi : i < l.length),
      ((MinHeap.sinkDownGo lt e fuel l i : List α) : Multiset α) + {l[i]} =
        (l : Multiset α) + {e} := by
  intro fuel
  induction fuel with
  | zero =>
    intro l i hi
    simp only [MinHeap.sinkDownGo]
    exact setMultiset l i hi e
  | succ f ih =>
    intro l i hi
    simp only [MinHeap.sinkDownGo]
    split
    · exact setMultiset l i hi e
    · rename_i j hsw
      have hj : j < l.length ∧ i < j := by
        split at hsw
        · split at hsw
          · split at hsw
            · cases hsw
              exact ⟨by omega, by omega⟩
            · exact absurd hsw (by simp)
          · rename_i si hsi
            have hsib : si < l.length ∧ i < si := by
              split at hsi
              · split at hsi
                · cases hsi
                  exact ⟨by omega, by omega⟩
                · exact absurd hsi (by simp)
              · exact absurd hsi (by simp)
            split at hsw
            · cases hsw
              exact ⟨by omega, by omega⟩
            · cases hsw
              exact hsib
        · split at hsw
          · split at hsw
            · cases hsw
              exact ⟨by omega, by omega⟩
            · exact absurd hsw (by simp)
          · exact absurd hsw (by simp)
      obtain ⟨hjl, hij⟩ := hj
      have hset : j < (l.set i (l.getD j e)).length := by simpa using hjl
      have h1 := ih (l.set i (l.getD j e)) j hset
      have hg : (l.set i (l.getD j e))[j] = l[j] :=
        List.getElem_set_ne (by omega) hset
      rw [hg] at h1
      rw [List.getD_eq_getElem l e hjl] at h1 ⊢
      exact cancelAux h1 (setMultiset l i hi (l[j]))

/-- `insert` adds exactly the new element, as a multiset. -/
theorem insert_multiset {α : Type} (lt : α → α → Bool) (l : List α) (x : α) :
    ((MinHeap.insert lt l x : List α) : Multiset α) =
      (l : Multiset α) + {x} := by
  unfold MinHeap.insert
  have hlen : l.length < (l ++ [x]).length := by simp
  have hb := bubbleUpGo_multiset lt x l.length (l ++ [x]) hlen
  have hget : (l ++ [x])[l.length] = x :=
    List.getElem_concat_length l x l.length rfl hlen
  rw [hget] at hb
  have hcoe : ((l ++ [x] : List α) : Multiset α) = (l : Multiset α) + {x} := by
    rw [← Multiset.coe_singleton, Multiset.coe_add]
  rw [hcoe] at hb
  exact add_right_cancel hb

theorem insert_mem {α : Type} [DecidableEq α] (lt : α → α → Bool)
    (l : List α) (x : α) : x ∈ MinHeap.insert lt l x := by
  have h := insert_multiset lt l x
  have hx : x ∈ ((MinHeap.insert lt l x : List α) : Multiset α) := by
    rw [h]
    simp
  exact Multiset.mem_coe.mp hx

theorem remove_nil {α : Type} [DecidableEq α] (lt : α → α → Bool) (v : α) :
    MinHeap.remove lt [] v = [] := rfl

theorem remove_not_mem {α : Type} [DecidableEq α] (lt : α → α → Bool)
    (l : List α) (v : α) (hv : v ∉ l) : MinHeap.remove lt l v = l := by
  unfold MinHeap.remove
  have hf : l.findIdx? (fun y => y == v) = none := by
    rw [List.findIdx?_eq_none_iff]
    intro x hx
    rw [beq_eq_false_iff_ne]
    rintro rfl
    exact hv hx
  rw [hf]

/-- `remove` deletes exactly one occurrence of a present value, as a
multiset. -/
theorem remove_multiset {α : Type} [DecidableEq α] (lt : α → α → Bool)
    (l : List α) (v : α) (hv : v ∈ l) :
    ((MinHeap.remove lt l v : List α) : Multiset α) + {v} =
      (l : Multiset α) := by
  have hne : l ≠ [] := List.ne_nil_of_mem hv
  unfold MinHeap.remove
  split
  · rename_i hf
    rw [List.findIdx?_eq_none_iff] at hf
    exact absurd (hf v hv) (by simp)
  · rename_i i hf
    obtain ⟨hil, hpi, -⟩ := List.findIdx?_eq_some_iff_getElem.mp hf
    have hiv : l[i] = v := by simpa using hpi
    split
    · rename_i hlast
      exact absurd (List.getLast?_eq_none_iff.mp hlast) hne
    · rename_i last hlast
      have hlast' : l.getLast hne = last := by
        rw [List.getLast?_eq_getLast l hne] at hlast
        exact Option.some_injective _ hlast
      have hsplit : l.dropLast ++ [last] = l := by
        rw [← hlast']
        exact List.dropLast_append_getLast hne
      have hlen0 : 0 < l.length := List.length_pos.mpr hne
      have hlen : l.dropLast.length + 1 = l.length := by
        have h1 := List.length_dropLast l
        omega
      have hcoel : (l : Multiset α) =
          (l.dropLast : Multiset α) + {last} := by
        conv_lhs => rw [← hsplit]
        rw [← Multiset.coe_singleton, Multiset.coe_add]
      by_cases hieq : i ≠ l.dropLast.length
      · rw [if_pos hieq]
        have hidl : i < l.dropLast.length := by omega
        have hdl : (l.dropLast)[i] = v := by
          rw [List.getElem_dropLast]
          exact hiv
        have hsm := setMultiset l.dropLast i hidl last
        rw [hdl] at hsm
        by_cases hcmp : lt last v = true
        · rw [if_pos hcmp]
          have hbi : i < (l.dropLast.set i last).length := by simpa using hidl
          have hb := bubbleUpGo_multiset lt last i (l.dropLast.set i last) hbi
          rw [List.getElem_set_self] at hb
          have hB := add_right_cancel hb
          rw [hB, hsm]
          exact hcoel.symm
        · rw [if_neg hcmp]
          have hbi : i < (l.dropLast.set i last).length := by simpa using hidl
          have hb := sinkDownGo_multiset lt last
            ((l.dropLast.set i last).length + 1) (l.dropLast.set i last) i hbi
          rw [List.getElem_set_self] at hb
          have hB := add_right_cancel hb
          rw [hB, hsm]
          exact hcoel.symm
      · rw [if_neg hieq]
        push_neg at hieq
        subst hieq
        have hvl : v = last := by
          rw [← hiv]
          have hidx : l.dropLast.length = l.length - 1 := by omega
          rw [← hlast']
          rw [List.getLast_eq_getElem l hne]
          congr 1
        rw [hvl]
        exact hcoel.symm

theorem remove_count_le_one {α : Type} [DecidableEq α] (lt : α → α → Bool)
    (l : List α) (v : α) (hc : l.count v ≤ 1) :
    v ∉ MinHeap.remove lt l v := by
  by_cases hv : v ∈ l
  · intro hmem
    have h := remove_multiset lt l v hv
    have hcount := congrArg (Multiset.count v) h
    simp [Multiset.coe_count] at hcount
    have hpos : 0 < (MinHeap.remove lt l v).count v :=
      List.count_pos_iff.mpr hmem
    omega
  · rw [remove_not_mem lt l v hv]
    exact hv

theorem mget_mset_self {α : Type} (m : List (String × α)) (k : String)
    (v : α) : mget (mset m k v) k = some v := by
  induction m with
  | nil => simp [mget, mset]
  | cons p rest ih =>
    obtain ⟨k1, v1⟩ := p
    cases hk : k1 == k with
    | true => simp [mset, hk, mget]
    | false =>
      simp only [mset, hk, Bool.false_eq_true, if_false]
      simp only [mget] at ih ⊢
      rw [List.find?_cons_of_neg]
      · exact ih
      · simpa using hk

/-- C6 (amended): for `u ≠ goal`, `updateVertex` recomputes `rhs[u]` as the
minimum of `g[target] + weight` over *all* outgoing edges of `u` -- the
source applies no blocked filter -- and, provided `u` is on the open queue
at most once, `u` ends up on the queue exactly when `g[u] ≠ rhs[u]` (one
copy is removed, and one is reinserted iff the values differ). -/
theorem C6_amended (graph : Graph) (startNode goalNode : Node) (u : String)
    (s : DStarState) (hne : u ≠ goalNode.osmid) (hcnt : s.pq.count u ≤ 1) :
    (updateVertex graph startNode goalNode u s).rhs =
      mset s.rhs u
        (listMin ((mgetL graph.edges u).map
          (fun e => ((mget s.gm e.target).getD ⊤) + (e.weight : ℝ)))) ∧
    (u ∈ (updateVertex graph startNode goalNode u s).pq ↔
      (mget s.gm u).getD ⊤ ≠
        (mget (updateVertex graph startNode goalNode u s).rhs u).getD ⊤) := by
  simp only [updateVertex]
  rw [if_pos hne]
  constructor
  · split
    · rfl
    · rfl
  · split
    · rename_i hc
      exact iff_of_true (insert_mem _ _ _) hc
    · rename_i hc
      exact iff_of_false (remove_count_le_one _ s.pq u hcnt)
        (fun h => h (not_not.mp hc))

/-- Graph for the C6 counterexample: `U` has a blocked edge of weight `1`
to `V` and an unblocked edge of weight `5` to `W`. -/
def gC6 : Graph :=
  { nodes := [("U", ⟨"U", 0, 0⟩), ("V", ⟨"V", 0, 90⟩), ("W", ⟨"W", 0, 180⟩)]
    edges := [("U", [{ source := "U", target := "V", weight := 1,
                       blocked := true },
                     { source := "U", target := "W", weight := 5 }])] }

/-- Replanner state for the C6 counterexample: both neighbours already
have `g = 0`, `U` is untouched. -/
def s6 : DStarState :=
  { gm := [("U", ⊤), ("V", 0), ("W", 0)]
    rhs := [("U", ⊤), ("V", 0), ("W", 0)]
    pq := [] }

theorem w1_le_5 : (1 : WithTop ℝ) ≤ 5 := by
  have h : ((1 : ℝ) : WithTop ℝ) ≤ ((5 : ℝ) : WithTop ℝ) :=
    WithTop.coe_le_coe.mpr (by norm_num)
  push_cast at h
  exact h

theorem w5top : min (5 : WithTop ℝ) ⊤ = 5 := min_eq_left le_top

theorem w15min : min (1 : WithTop ℝ) 5 = 1 := min_eq_left w1_le_5

theorem wtop_ne_1 : (⊤ : WithTop ℝ) ≠ 1 := fun h => WithTop.one_ne_top h.symm

theorem gC6_rhs1 :
    mset s6.rhs "U"
      (listMin ((mgetL gC6.edges "U").map
        (fun e => ((mget s6.gm e.target).getD ⊤) + (e.weight : ℝ)))) =
    [("U", 1), ("V", 0), ("W", 0)] := by
  simp [s6, gC6, mget, mset, mgetL, listMin, w5top, w15min]

theorem gC6_update :
    updateVertex gC6 ⟨"S", 0, 0⟩ ⟨"G", 0, 0⟩ "U" s6 =
      { gm := s6.gm, rhs := [("U", 1), ("V", 0), ("W", 0)], pq := ["U"] } := by
  simp only [updateVertex]
  rw [if_pos (show ("U" : String) ≠ "G" by decide)]
  rw [gC6_rhs1, show s6.pq = ([] : List String) from rfl, remove_nil]
  rw [if_pos (show (mget s6.gm "U").getD ⊤ ≠
      (mget [("U", (1 : WithTop ℝ)), ("V", 0), ("W", 0)] "U").getD ⊤ by
    simp only [s6, mget]
    exact wtop_ne_1)]
  simp [MinHeap.insert, MinHeap.bubbleUpGo]

/-- C6 counterexample: in `s6` the spec's `rhs` (minimum over *non-blocked*
edges only) is `5`, but `updateVertex` stores `1` -- the minimum over all
edges, blocked one included -- and reinserts `U` accordingly. -/
theorem C6_counterexample :
    (updateVertex gC6 ⟨"S", 0, 0⟩ ⟨"G", 0, 0⟩ "U" s6).rhs =
      [("U", 1), ("V", 0), ("W", 0)] ∧
    specRhsValue gC6 s6.gm "U" = 5 ∧
    (1 : WithTop ℝ) ≠ 5 ∧
    (updateVertex gC6 ⟨"S", 0, 0⟩ ⟨"G", 0, 0⟩ "U" s6).pq = ["U"] := by
  refine ⟨by rw [gC6_update], ?_, ?_, by rw [gC6_update]⟩
  · simp [specRhsValue, gC6, s6, mget, mgetL, listMin, w5top]
  · intro h
    have h5 : (1 : ℝ) = 5 := by exact_mod_cast h
    norm_num at h5

/-- Witness for `C6_amended` at the counterexample state. -/
theorem C6_witness :
    (updateVertex gC6 ⟨"S", 0, 0⟩ ⟨"G", 0, 0⟩ "U" s6).rhs =
      mset s6.rhs "U"
        (listMin ((mgetL gC6.edges "U").map
          (fun e => ((mget s6.gm e.target).getD ⊤) + (e.weight : ℝ)))) ∧
    ("U" ∈ (updateVertex gC6 ⟨"S", 0, 0⟩ ⟨"G", 0, 0⟩ "U" s6).pq ↔
      (mget s6.gm "U").getD ⊤ ≠
        (mget (updateVertex gC6 ⟨"S", 0, 0⟩ ⟨"G", 0, 0⟩ "U" s6).rhs
          "U").getD ⊤) :=
  C6_amended gC6 ⟨"S", 0, 0⟩ ⟨"G", 0, 0⟩ "U" s6 (by decide) (by simp [s6])

/-! ### Claim C9 -/

/-- Graph with a cheap *blocked* shortcut `A → B` (weight 1) and an honest
detour `A → C → B` (weight 10). -/
def g9 : Graph :=
  { nodes := [("A", ⟨"A", 0, 0⟩), ("C", ⟨"C", 0, 90⟩), ("B", ⟨"B", 0, 180⟩)]
    edges := [("A", [{ source := "A", target := "B", weight := 1,
                       blocked := true },
                     { source := "A", target := "C", weight := 5 }]),
              ("C", [{ source := "C", target := "B", weight := 5 }])] }

theorem g9_connected : isGraphConnected g9 = true := by rfl

theorem wD2_lt_wD1 :
    3185500 * ((Real.pi : ℝ) : WithTop ℝ) <
      6371000 * ((Real.pi : ℝ) : WithTop ℝ) := by
  have h : ((3185500 * Real.pi : ℝ) : WithTop ℝ) <
      ((6371000 * Real.pi : ℝ) : WithTop ℝ) :=
    WithTop.coe_lt_coe.mpr D2_lt_D1
  push_cast at h
  exact h

theorem g9_resolve_start :
    findNearestNode g9.nodes ⟨0, 0⟩ = some ⟨"A", 0, 0⟩ := by
  simp [findNearestNode, findNearestGo, g9, Node.coord, hav_same,
    hav_0_90, hav_0_180, wD1_nonneg, wD2_nonneg, not_lt.mpr wD1_nonneg,
    not_lt.mpr wD2_nonneg]

theorem g9_resolve_goal :
    findNearestNode g9.nodes ⟨0, 180⟩ = some ⟨"B", 0, 180⟩ := by
  simp [findNearestNode, findNearestGo, g9, Node.coord, hav_same,
    hav_180_0, hav_90_180, hav_180_90, wD1_pos, wD2_pos, wD2_lt_wD1,
    wD2_nonneg, not_lt.mpr wD2_nonneg]

theorem w5_lt_top : (5 : WithTop ℝ) < ⊤ := by
  have h : ((5 : ℝ) : WithTop ℝ) < ⊤ := WithTop.coe_lt_top _
  push_cast at h
  exact h

theorem w55_lt_top : (5 : WithTop ℝ) + 5 < ⊤ := by
  have h : ((5 + 5 : ℝ) : WithTop ℝ) < ⊤ := WithTop.coe_lt_top _
  push_cast at h
  exact h

theorem w5_untop : (5 : WithTop ℝ).untop' 0 = 5 := rfl

theorem w55_untop : ((5 : WithTop ℝ) + 5).untop' 0 = 5 + 5 := rfl

theorem rD2_nonneg : (0 : ℝ) ≤ 3185500 * Real.pi := D2_pos.le

/-- Dijkstra on `g9` honours the blocked flag and takes the detour of
cost `10`. -/
theorem dijk_g9_run :
    dijkstraPathfinding g9 ⟨0, 0⟩ ⟨0, 180⟩ "dijkstra" =
      some (.ok
        { path := [(0, 0), (90, 0), (180, 0)]
          distance := 1 / 100
          visitedNodes := [(0, 0), (90, 0), (180, 0)]
          nodesVisited := 3
          edgesExplored := 3
          pathNodeCount := 3 }) := by
  unfold dijkstraPathfinding
  rw [g9_connected, g9_resolve_start, g9_resolve_goal]
  simp [dijkstraLoop, initDijkState, relaxEdges_nil, relaxEdges_blocked,
    relaxEdges_update, pqEnqueue, walkLoop, dijkstraFuel, walkFuel, g9,
    mset, mget, mgetL, findEdge, Node.coord, hav_0_90, hav_0_180,
    hav_90_180, hav_same, w5_lt_top, w55_lt_top, w5_untop, w55_untop]
  norm_num

/-- GBFS on `g9` ignores the blocked flag and returns the blocked
shortcut of cost `1`. -/
theorem gbfs_g9_run :
    gbfsPathfinding g9 ⟨0, 0⟩ ⟨0, 180⟩ =
      some (.ok
        { path := [(0, 0), (180, 0)]
          distance := 1 / 1000
          visitedNodes := [(0, 0), (0, 0), (180, 0)]
          nodesVisited := 2
          edgesExplored := 2
          pathNodeCount := 2 }) := by
  unfold gbfsPathfinding
  rw [g9_resolve_start, g9_resolve_goal]
  simp [gbfsLoop, gbfsRelaxList, gbfsRelaxEdge, pqEnqueue, dijkstraFuel,
    g9, mset, mget, mgetL, findEdge, walkLoop, walkFuel, Node.coord,
    hav_0_180, hav_180_0, hav_90_180, hav_same, rD2_nonneg,
    Real.pi_nonneg]

/-- C9: on `g9` both searches succeed, and GBFS returns a *smaller*
distance than Dijkstra (`0.001 < 0.01` km): its missing blocked-edge
filter lets it traverse and charge the blocked shortcut, violating the
claimed lower bound by the optimal blocked-respecting distance. -/
theorem C9_gbfs_below_dijkstra :
    dijkstraPathfinding g9 ⟨0, 0⟩ ⟨0, 180⟩ "dijkstra" =
      some (.ok
        { path := [(0, 0), (90, 0), (180, 0)]
          distance := 1 / 100
          visitedNodes := [(0, 0), (90, 0), (180, 0)]
          nodesVisited := 3
          edgesExplored := 3
          pathNodeCount := 3 }) ∧
    gbfsPathfinding g9 ⟨0, 0⟩ ⟨0, 180⟩ =
      some (.ok
        { path := [(0, 0), (180, 0)]
          distance := 1 / 1000
          visitedNodes := [(0, 0), (0, 0), (180, 0)]
          nodesVisited := 2
          edgesExplored := 2
          pathNodeCount := 2 }) ∧
    (1 / 1000 : ℝ) < 1 / 100 :=
  ⟨dijk_g9_run, gbfs_g9_run, by norm_num⟩

/-! ### Claim C5 -/

/-- Three-node graph with strictly positive weights on which the haversine
heuristic drastically overestimates: `A → B → G` costs `2`, `A → G` costs
`3`, while `h(B) = 6371000π` meters dwarfs both. -/
def g5 : Graph :=
  { nodes := [("A", ⟨"A", 0, 90⟩), ("B", ⟨"B", 0, 180⟩), ("G", ⟨"G", 0, 0⟩)]
    edges := [("A", [{ source := "A", target := "B", weight := 1 },
                     { source := "A", target := "G", weight := 3 }]),
              ("B", [{ source := "B", target := "G", weight := 1 }])] }

theorem g5_connected : isGraphConnected g5 = true := by rfl

theorem wD1_nlt_wD2 :
    ¬ (6371000 * ((Real.pi : ℝ) : WithTop ℝ) <
      3185500 * ((Real.pi : ℝ) : WithTop ℝ)) := by
  have h : ((3185500 * Real.pi : ℝ) : WithTop ℝ) ≤
      ((6371000 * Real.pi : ℝ) : WithTop ℝ) :=
    WithTop.coe_le_coe.mpr (le_of_lt D2_lt_D1)
  push_cast at h
  exact not_lt.mpr h

theorem g5_resolve_start :
    findNearestNode g5.nodes ⟨0, 90⟩ = some ⟨"A", 0, 90⟩ := by
  simp [findNearestNode, findNearestGo, g5, Node.coord, hav_same,
    hav_90_180, hav_90_0, wD2_nonneg, not_lt.mpr wD2_nonneg]

theorem g5_resolve_goal :
    findNearestNode g5.nodes ⟨0, 0⟩ = some ⟨"G", 0, 0⟩ := by
  simp [findNearestNode, findNearestGo, g5, Node.coord, hav_same,
    hav_0_90, hav_0_180, wD2_pos, wD2_nonneg, wD1_nlt_wD2,
    not_lt.mpr wD2_nonneg]
  intro h1 h2
  exact wD1_pos

theorem w3_lt_top : (3 : WithTop ℝ) < ⊤ := by
  norm_num [lt_top_iff_ne_top]

theorem w11_lt_3 : (1 : WithTop ℝ) + 1 < 3 := by
  have h : ((1 + 1 : ℝ) : WithTop ℝ) < ((3 : ℝ) : WithTop ℝ) :=
    WithTop.coe_lt_coe.mpr (by norm_num)
  push_cast at h
  exact h

theorem w2_lt_3 : (2 : WithTop ℝ) < 3 := by
  have h : ((2 : ℝ) : WithTop ℝ) < ((3 : ℝ) : WithTop ℝ) :=
    WithTop.coe_lt_coe.mpr (by norm_num)
  push_cast at h
  exact h

theorem r1_le_3 : (1 : ℝ) ≤ 3 := by norm_num

theorem r3_nle_11 : ¬ ((3 : ℝ) ≤ 1 + 1) := by norm_num

theorem r3_nle_2 : ¬ ((3 : ℝ) ≤ 2) := by norm_num

theorem rD1p1_nle_3 : ¬ ((1 : ℝ) + 6371000 * Real.pi ≤ 3) := by
  nlinarith [Real.pi_gt_three]

theorem w1_untop : (1 : WithTop ℝ).untop' 0 = 1 := rfl

theorem w2_untop : (2 : WithTop ℝ).untop' 0 = 2 := rfl

theorem w3_untop : (3 : WithTop ℝ).untop' 0 = 3 := rfl

theorem w11_untop : ((1 : WithTop ℝ) + 1).untop' 0 = 1 + 1 := rfl

set_option maxHeartbeats 1600000

/-- Dijkstra on `g5` finds the optimal route `A → B → G` of cost `2`. -/
theorem dijk_g5_run :
    dijkstraPathfinding g5 ⟨0, 90⟩ ⟨0, 0⟩ "dijkstra" =
      some (.ok
        { path := [(90, 0), (180, 0), (0, 0)]
          distance := 1 / 500
          visitedNodes := [(90, 0), (180, 0), (0, 0)]
          nodesVisited := 3
          edgesExplored := 3
          pathNodeCount := 3 }) := by
  unfold dijkstraPathfinding
  rw [g5_connected, g5_resolve_start, g5_resolve_goal]
  simp [dijkstraLoop, initDijkState, relaxEdges_nil, relaxEdges_update,
    pqEnqueue, walkLoop, dijkstraFuel, walkFuel, g5, mset, mget, mgetL,
    findEdge, Node.coord, hav_90_0, hav_90_180, hav_0_90, hav_0_180,
    hav_180_0, hav_same, w1_lt_top, w3_lt_top, w11_lt_3, w2_lt_3, r1_le_3,
    r3_nle_11, r3_nle_2, w1_untop, w2_untop, w3_untop, w11_untop]
  norm_num

/-- A* on `g5` is misled by the overestimating heuristic and returns the
direct route `A → G` of cost `3`. -/
theorem astar_g5_run :
    aStarPathfinding g5 ⟨0, 90⟩ ⟨0, 0⟩ =
      some (.ok
        { path := [(90, 0), (0, 0)]
          distance := 3 / 1000
          visitedNodes := [(90, 0), (0, 0)]
          nodesVisited := 2
          edgesExplored := 2
          pathNodeCount := 2 }) := by
  unfold aStarPathfinding dijkstraPathfinding
  rw [g5_connected, g5_resolve_start, g5_resolve_goal]
  simp [dijkstraLoop, initDijkState, relaxEdges_nil, relaxEdges_update,
    pqEnqueue, walkLoop, dijkstraFuel, walkFuel, g5, mset, mget, mgetL,
    findEdge, Node.coord, hav_90_0, hav_90_180, hav_0_90, hav_0_180,
    hav_180_0, hav_same, w1_lt_top, w3_lt_top, w11_lt_3, w2_lt_3, r1_le_3,
    r3_nle_11, r3_nle_2, rD1p1_nle_3, w1_untop, w2_untop, w3_untop,
    w11_untop]

set_option maxHeartbeats 200000

/-- C5 counterexample: on the strictly-positive-weight graph `g5` with the
goal reachable from the start, Dijkstra and A* succeed with *different*
distances (`0.002` vs `0.003` km): the haversine heuristic is not
admissible for arbitrary positive weights. -/
theorem C5_counterexample :
    dijkstraPathfinding g5 ⟨0, 90⟩ ⟨0, 0⟩ "dijkstra" =
      some (.ok
        { path := [(90, 0), (180, 0), (0, 0)]
          distance := 1 / 500
          visitedNodes := [(90, 0), (180, 0), (0, 0)]
          nodesVisited := 3
          edgesExplored := 3
          pathNodeCount := 3 }) ∧
    aStarPathfinding g5 ⟨0, 90⟩ ⟨0, 0⟩ =
      some (.ok
        { path := [(90, 0), (0, 0)]
          distance := 3 / 1000
          visitedNodes := [(90, 0), (0, 0)]
          nodesVisited := 2
          edgesExplored := 2
          pathNodeCount := 2 }) ∧
    (1 / 500 : ℝ) ≠ 3 / 1000 :=
  ⟨dijk_g5_run, astar_g5_run, by norm_num⟩

/-- C5 (amended): `aStarPathfinding` is literally `dijkstraPathfinding`
invoked with the `'a-star'` id, and the only effect of that id is the
enqueue priority of a successful relaxation: the distance and
previous-pointer updates are identical, with priority
`alt + haversine(target, goal)` for A* versus `alt` for Dijkstra.  Equal
returned distances for arbitrary strictly positive weights do not follow
(see the counterexample); they would require the heuristic to be
consistent with the edge weights. -/
theorem C5_amended (g : Graph) (startC goalC : Coord) (goalNode tn : Node)
    (current : String) (e : Edge) (rest : List Edge) (st : DijkState)
    (dc dt : WithTop ℝ)
    (hb : (e.blocked || g.blockedNodes.contains e.target) = false)
    (h1 : mget st.dist current = some dc)
    (h2 : mget st.dist e.target = some dt)
    (hlt : dc + (e.weight : ℝ) < dt)
    (htn : mget g.nodes e.target = some tn) :
    aStarPathfinding g startC goalC =
      dijkstraPathfinding g startC goalC "a-star" ∧
    relaxEdges g goalNode "a-star" current (e :: rest) st =
      relaxEdges g goalNode "a-star" current rest
        { st with dist := mset st.dist e.target (dc + (e.weight : ℝ)),
                  prev := mset st.prev e.target (some current),
                  pq := pqEnqueue st.pq e.target
                    ((dc + (e.weight : ℝ)).untop' 0 +
                      haversineDistance tn.coord goalNode.coord) } ∧
    relaxEdges g goalNode "dijkstra" current (e :: rest) st =
      relaxEdges g goalNode "dijkstra" current rest
        { st with dist := mset st.dist e.target (dc + (e.weight : ℝ)),
                  prev := mset st.prev e.target (some current),
                  pq := pqEnqueue st.pq e.target
                    ((dc + (e.weight : ℝ)).untop' 0) } := by
  refine ⟨rfl, ?_, ?_⟩
  · rw [relaxEdges_update g goalNode "a-star" current e rest st dc dt hb h1
      h2 hlt]
    simp [htn]
  · rw [relaxEdges_update g goalNode "dijkstra" current e rest st dc dt hb
      h1 h2 hlt]
    simp

/-- Concrete relaxation state for the `C5_amended` witness. -/
def st0 : DijkState :=
  { visited := [], visitedNodes := [], dist := [("A", 0), ("B", ⊤)],
    prev := [("A", none), ("B", none)], pq := [], edgesExplored := 0 }

/-- Witness for `C5_amended` on `g1` with the goal node `B`. -/
theorem C5_witness :
    aStarPathfinding g1 ⟨0, 0⟩ ⟨0, 180⟩ =
      dijkstraPathfinding g1 ⟨0, 0⟩ ⟨0, 180⟩ "a-star" ∧
    relaxEdges g1 ⟨"B", 0, 180⟩ "a-star" "A"
        [{ source := "A", target := "B", weight := 1 }] st0 =
      relaxEdges g1 ⟨"B", 0, 180⟩ "a-star" "A" []
        { st0 with
            dist := mset st0.dist "B" ((0 : WithTop ℝ) + ((1 : ℝ) : WithTop ℝ)),
            prev := mset st0.prev "B" (some "A"),
            pq := pqEnqueue st0.pq "B"
              (((0 : WithTop ℝ) + ((1 : ℝ) : WithTop ℝ)).untop' 0 +
                haversineDistance (Node.coord ⟨"B", 0, 180⟩)
                  (Node.coord ⟨"B", 0, 180⟩)) } ∧
    relaxEdges g1 ⟨"B", 0, 180⟩ "dijkstra" "A"
        [{ source := "A", target := "B", weight := 1 }] st0 =
      relaxEdges g1 ⟨"B", 0, 180⟩ "dijkstra" "A" []
        { st0 with
            dist := mset st0.dist "B" ((0 : WithTop ℝ) + ((1 : ℝ) : WithTop ℝ)),
            prev := mset st0.prev "B" (some "A"),
            pq := pqEnqueue st0.pq "B"
              (((0 : WithTop ℝ) + ((1 : ℝ) : WithTop ℝ)).untop' 0) } :=
  C5_amended g1 ⟨0, 0⟩ ⟨0, 180⟩ ⟨"B", 0, 180⟩ ⟨"B", 0, 180⟩ "A"
    { source := "A", target := "B", weight := 1 } [] st0 0 ⊤ rfl rfl rfl
    (by simp) rfl

/-! ### Claim C10 -/

theorem relaxEdges_miss (g : Graph) (gn : Node) (alg cur : String) (e : Edge)
    (rest : List Edge) (s : DijkState)
    (hb : (e.blocked || g.blockedNodes.contains e.target) = false)
    (h : mget s.dist cur = none ∨ mget s.dist e.target = none) :
    relaxEdges g gn alg cur (e :: rest) s = relaxEdges g gn alg cur rest s := by
  conv_lhs => rw [relaxEdges]
  simp only [hb, Bool.false_eq_true, if_false]
  rcases h with h | h
  · rw [h]
  · rw [h]
    cases mget s.dist cur <;> rfl

/-- The relaxation loop never touches the visited bookkeeping. -/
theorem relaxEdges_visited (g : Graph) (gn : Node) (alg cur : String)
    (edges : List Edge) :
    ∀ s, (relaxEdges g gn alg cur edges s).visited = s.visited ∧
      (relaxEdges g gn alg cur edges s).visitedNodes = s.visitedNodes := by
  induction edges with
  | nil => intro s; exact ⟨rfl, rfl⟩
  | cons e rest ih =>
    intro s
    cases hb : (e.blocked || g.blockedNodes.contains e.target) with
    | true =>
      rw [relaxEdges_blocked g gn alg cur e rest s hb]
      exact ih s
    | false =>
      cases h1 : mget s.dist cur with
      | none =>
        rw [relaxEdges_miss g gn alg cur e rest s hb (Or.inl h1)]
        exact ih s
      | some dc =>
        cases h2 : mget s.dist e.target with
        | none =>
          rw [relaxEdges_miss g gn alg cur e rest s hb (Or.inr h2)]
          exact ih s
        | some dt =>
          by_cases hlt : dc + (e.weight : ℝ) < dt
          · rw [relaxEdges_update g gn alg cur e rest s dc dt hb h1 h2 hlt]
            exact ih _
          · rw [relaxEdges_noupdate g gn alg cur e rest s dc dt hb h1 h2 hlt]
            exact ih s

/-- Each settled vertex appends exactly one id to `visited` and one
coordinate pair to `visitedNodes`, so the loop preserves their equal
lengths. -/
theorem dijkstraLoop_sync (g : Graph) (gn : Node) (alg : String) :
    ∀ fuel s s', dijkstraLoop g gn alg fuel s = some s' →
      s.visited.length = s.visitedNodes.length →
      s'.visited.length = s'.visitedNodes.length := by
  intro fuel
  induction fuel with
  | zero =>
    intro s s' h _
    exact absurd h (by simp [dijkstraLoop])
  | succ n ih =>
    intro s s' h hs
    simp only [dijkstraLoop] at h
    split at h
    · have he := Option.some_injective _ h
      rw [← he]
      exact hs
    · rename_i pr current rest hpq
      by_cases hv : s.visited.contains current = true
      · rw [if_pos hv] at h
        exact ih _ s' h hs
      · rw [if_neg hv] at h
        split at h
        · exact absurd h (by simp)
        · rename_i node hm
          by_cases hgoal : (current == gn.osmid) = true
          · rw [if_pos hgoal] at h
            have he := Option.some_injective _ h
            rw [← he]
            simp [hs]
          · rw [if_neg hgoal] at h
            refine ih _ s' h ?_
            have hv' := relaxEdges_visited g gn alg current (mgetL g.edges current)
            rw [(hv' _).1, (hv' _).2]
            simp [hs]

/-- C10: whenever Dijkstra/A* returns a successful result, its metric
fields are mutually consistent: `nodesVisited` equals the number of
recorded visited coordinates, and `pathNodeCount` equals the number of
coordinates of the returned path. -/
theorem C10_metrics (g : Graph) (sc tc : Coord) (alg : String)
    (r : PathfindingResult)
    (h : dijkstraPathfinding g sc tc alg = some (.ok r)) :
    r.nodesVisited = r.visitedNodes.length ∧
    r.pathNodeCount = r.path.length := by
  unfold dijkstraPathfinding at h
  split at h
  all_goals try exact Except.noConfusion (Option.some_injective _ h)
  split at h
  all_goals try exact Except.noConfusion (Option.some_injective _ h)
  split at h
  all_goals try exact Option.noConfusion h
  split at h
  all_goals try exact Option.noConfusion h
  split at h
  all_goals try exact Except.noConfusion (Option.some_injective _ h)
  cases h
  refine ⟨?_, rfl⟩
  exact dijkstraLoop_sync g _ alg _ _ _ (by assumption)
    (by simp [initDijkState])

/-- Witness for `C10_metrics` at the successful `g1` run. -/
theorem C10_witness :
    ({ path := [(180, 0)], distance := 0, visitedNodes := [(0, 0)],
       nodesVisited := 1, edgesExplored := 0, pathNodeCount := 1 } :
        PathfindingResult).nodesVisited =
      ({ path := [(180, 0)], distance := 0, visitedNodes := [(0, 0)],
         nodesVisited := 1, edgesExplored := 0, pathNodeCount := 1 } :
          PathfindingResult).visitedNodes.length ∧
    ({ path := [(180, 0)], distance := 0, visitedNodes := [(0, 0)],
       nodesVisited := 1, edgesExplored := 0, pathNodeCount := 1 } :
        PathfindingResult).pathNodeCount =
      ({ path := [(180, 0)], distance := 0, visitedNodes := [(0, 0)],
         nodesVisited := 1, edgesExplored := 0, pathNodeCount := 1 } :
          PathfindingResult).path.length :=
  C10_metrics g1 ⟨0, 0⟩ ⟨0, 180⟩ "dijkstra" _ dijk_g1_run

/-! ### Claim C7 -/

/-- C7: for a tracked node `u`, `calculateKey` returns exactly the pair
`[min(g[u], rhs[u]) + h(start, u) + km, min(g[u], rhs[u])]` with `h` the
great-circle distance from the start node, and the live comparator of the
open heap orders two ids exactly by the lexicographic
(first-component-then-second) strict order on their freshly computed
keys. -/
theorem C7_key_and_order (startNode : Node) (km : ℝ)
    (gm rhs : List (String × WithTop ℝ)) (graph : Graph) (u a b : String)
    (node : Node) (h : mget graph.nodes u = some node) :
    calculateKey u startNode km gm rhs graph =
      (min ((mget gm u).getD ⊤) ((mget rhs u).getD ⊤) +
        ((haversineDistance startNode.coord node.coord : ℝ) : WithTop ℝ) +
        ((km : ℝ) : WithTop ℝ),
       min ((mget gm u).getD ⊤) ((mget rhs u).getD ⊤)) ∧
    (dStarLt startNode gm rhs graph a b = true ↔
      keyLexLt (calculateKey a startNode 0 gm rhs graph)
        (calculateKey b startNode 0 gm rhs graph)) := by
  constructor
  · unfold calculateKey
    rw [h]
    rfl
  · unfold dStarLt keyLexLt
    by_cases heq : (calculateKey a startNode 0 gm rhs graph).1 =
        (calculateKey b startNode 0 gm rhs graph).1
    · rw [if_neg (by simp [heq])]
      simp [heq]
    · rw [if_pos heq]
      simp [heq]

/-- Witness for `C7_key_and_order` at a tracked node of `g1`. -/
theorem C7_witness :
    calculateKey "A" ⟨"S", 0, 90⟩ 0 [("A", 0)] [] g1 =
      (min ((mget [("A", (0 : WithTop ℝ))] "A").getD ⊤)
          ((mget ([] : List (String × WithTop ℝ)) "A").getD ⊤) +
        ((haversineDistance (Node.coord ⟨"S", 0, 90⟩)
            (Node.coord ⟨"A", 0, 0⟩) : ℝ) : WithTop ℝ) +
        (((0 : ℝ) : ℝ) : WithTop ℝ),
       min ((mget [("A", (0 : WithTop ℝ))] "A").getD ⊤)
         ((mget ([] : List (String × WithTop ℝ)) "A").getD ⊤)) ∧
    (dStarLt ⟨"S", 0, 90⟩ [("A", (0 : WithTop ℝ))] [] g1 "A" "B" = true ↔
      keyLexLt (calculateKey "A" ⟨"S", 0, 90⟩ 0 [("A", 0)] [] g1)
        (calculateKey "B" ⟨"S", 0, 90⟩ 0 [("A", 0)] [] g1)) :=
  C7_key_and_order ⟨"S", 0, 90⟩ 0 [("A", 0)] [] g1 "A" "A" "B" ⟨"A", 0, 0⟩
    (by rfl)

/-! ### Claim C2 -/

/-- Node collection for the construction counterexample. -/
def c2nodes : List (String × Coord) := [("A", ⟨0, 0⟩), ("B", ⟨0, 180⟩)]

/-- C2 counterexample: the spec rejects all three raw edges (zero weight,
self-loop, dangling reference), yet the constructor accepts the whole
batch without error: the zero-weight edge gets a substituted haversine
weight, the self-loop is inserted twice on `A`, and the dangling edge
creates an adjacency entry for the unknown id `C`. -/
theorem C2_counterexample :
    GraphBuild.specRejects c2nodes ⟨"A", "B", some 0⟩ ∧
    GraphBuild.specRejects c2nodes ⟨"A", "A", some 5⟩ ∧
    GraphBuild.specRejects c2nodes ⟨"A", "C", some 7⟩ ∧
    GraphBuild.buildGraphEdges c2nodes
      [⟨"A", "B", some 0⟩, ⟨"A", "A", some 5⟩, ⟨"A", "C", some 7⟩] =
      [("A", [⟨"B", 6371000 * Real.pi⟩, ⟨"A", 5⟩, ⟨"A", 5⟩, ⟨"C", 7⟩]),
       ("B", [⟨"A", 6371000 * Real.pi⟩]),
       ("C", [⟨"A", 7⟩])] := by
  refine ⟨Or.inr (Or.inr (Or.inr (Or.inr ⟨0, rfl, le_refl 0⟩))),
    Or.inr (Or.inr (Or.inl rfl)), Or.inr (Or.inl rfl), ?_⟩
  norm_num [GraphBuild.buildGraphEdges, GraphBuild.addRawEdge,
    GraphBuild.addRawEdgeSub, GraphBuild.mappend, mget, c2nodes, hav_0_180]
  rw [if_neg (show ¬ ("A" : String) = "C" by decide),
    if_neg (show ¬ ("B" : String) = "C" by decide)]

/-- C2 (amended): one constructor iteration never fails.  An edge with a
finite positive parsed length is inserted in both directions unchecked
(self-loops and unknown node ids included); an edge whose parsed length is
`NaN` or non-positive is given the substituted haversine weight when both
endpoint coordinates are known and is silently skipped otherwise. -/
theorem C2_amended (nodes : List (String × Coord))
    (adj : List (String × List GraphBuild.GEdge)) (f : GraphBuild.RawEdge) :
    (∀ w, f.length = some w → 0 < w →
      GraphBuild.addRawEdge nodes adj f =
        GraphBuild.mappend (GraphBuild.mappend adj f.u ⟨f.v, w⟩) f.v
          ⟨f.u, w⟩) ∧
    (f.length = none ∨ (∃ w, f.length = some w ∧ w ≤ 0) →
      ((∃ cu cv, mget nodes f.u = some cu ∧ mget nodes f.v = some cv ∧
          GraphBuild.addRawEdge nodes adj f =
            GraphBuild.mappend
              (GraphBuild.mappend adj f.u ⟨f.v, haversineDistance cu cv⟩)
              f.v ⟨f.u, haversineDistance cu cv⟩) ∨
        (((mget nodes f.u).isNone ∨ (mget nodes f.v).isNone) ∧
          GraphBuild.addRawEdge nodes adj f = adj))) := by
  constructor
  · intro w hw hpos
    unfold GraphBuild.addRawEdge
    rw [hw]
    exact if_neg (not_le.mpr hpos)
  · intro hbad
    have hsub : GraphBuild.addRawEdge nodes adj f =
        GraphBuild.addRawEdgeSub nodes adj f := by
      unfold GraphBuild.addRawEdge
      rcases hbad with hnone | ⟨w, hw, hle⟩
      · rw [hnone]
      · rw [hw]
        exact if_pos hle
    rw [hsub]
    unfold GraphBuild.addRawEdgeSub
    cases hu : mget nodes f.u with
    | none => exact Or.inr ⟨Or.inl rfl, rfl⟩
    | some cu =>
      cases hv : mget nodes f.v with
      | none => exact Or.inr ⟨Or.inr rfl, rfl⟩
      | some cv => exact Or.inl ⟨cu, cv, rfl, rfl, rfl⟩

/-- Witness for `C2_amended`: the self-loop `A → A` with weight `5` is
inserted (twice, once per direction) instead of being rejected. -/
theorem C2_witness :
    GraphBuild.addRawEdge c2nodes [] ⟨"A", "A", some 5⟩ =
      GraphBuild.mappend (GraphBuild.mappend [] "A" ⟨"A", 5⟩) "A"
        ⟨"A", 5⟩ :=
  (C2_amended c2nodes [] ⟨"A", "A", some 5⟩).1 5 rfl (by norm_num)

/-! ### Claim C8 -/

/-- Two-node graph whose node `A` is a blocked node; the lone edge `A → B`
keeps it connected in the sense of `isGraphConnected` (which starts its DFS
at the first *unblocked* node, `B`, with no edges to explore). -/
def g8 : Graph :=
  { nodes := [("A", ⟨"A", 0, 0⟩), ("B", ⟨"B", 0, 180⟩)]
    edges := [("A", [{ source := "A", target := "B", weight := 1 }])]
    blockedNodes := ["A"] }

theorem g8_connected : isGraphConnected g8 = true := by rfl

theorem g8_resolve_start :
    findNearestNode g8.nodes ⟨0, 0⟩ = some ⟨"A", 0, 0⟩ := by
  simp [findNearestNode, findNearestGo, g8, Node.coord, hav_same,
    hav_0_180, wD1_nonneg, not_lt.mpr wD1_nonneg]

theorem g8_resolve_goal :
    findNearestNode g8.nodes ⟨0, 180⟩ = some ⟨"B", 0, 180⟩ := by
  simp [findNearestNode, findNearestGo, g8, Node.coord, hav_same,
    hav_180_0, wD1_pos, wD1_nonneg, not_lt.mpr wD1_nonneg]

/-- Dijkstra resolves the start coordinate to the *blocked* node `A` and
returns a path that departs from it. -/
theorem dijk_g8_run :
    dijkstraPathfinding g8 ⟨0, 0⟩ ⟨0, 180⟩ "dijkstra" =
      some (.ok
        { path := [(0, 0), (180, 0)]
          distance := 1 / 1000
          visitedNodes := [(0, 0), (180, 0)]
          nodesVisited := 2
          edgesExplored := 1
          pathNodeCount := 2 }) := by
  unfold dijkstraPathfinding
  rw [g8_connected, g8_resolve_start, g8_resolve_goal]
  simp [dijkstraLoop, initDijkState, relaxEdges_nil, relaxEdges_update,
    walkLoop, dijkstraFuel, walkFuel, g8, mset, mget, mgetL, findEdge,
    pqEnqueue, Node.coord, w1_lt_top]

/-- C8 counterexample: `A` is in `g8`'s blocked-node overlay, yet the
start coordinate resolves to `A` (the call sites never pass the blocked
set to `findNearestNode`) and the Dijkstra search runs from the blocked
node and returns a path departing from it. -/
theorem C8_counterexample :
    g8.blockedNodes.contains "A" = true ∧
    findNearestNode g8.nodes ⟨0, 0⟩ = some ⟨"A", 0, 0⟩ ∧
    dijkstraPathfinding g8 ⟨0, 0⟩ ⟨0, 180⟩ "dijkstra" =
      some (.ok
        { path := [(0, 0), (180, 0)]
          distance := 1 / 1000
          visitedNodes := [(0, 0), (180, 0)]
          nodesVisited := 2
          edgesExplored := 1
          pathNodeCount := 2 }) :=
  ⟨rfl, g8_resolve_start, dijk_g8_run⟩

/-- The scan worker of `findNearestNode` (with the call sites' empty
blocked set and infinite radius) returns a node of the list -- or the
incoming candidate -- whose distance to the query point is minimal among
the incoming minimum and the whole list. -/
theorem findNearestGo_min (point : Coord) (l : List (String × Node)) :
    ∀ (nearest : Option Node) (minD : WithTop ℝ),
      (∀ m, nearest = some m →
        minD = ((haversineDistance point m.coord : ℝ) : WithTop ℝ)) →
      ∀ n, findNearestGo point ⊤ [] l nearest minD = some n →
        ((nearest = some n ∨ ∃ p ∈ l, p.2 = n) ∧
          ((haversineDistance point n.coord : ℝ) : WithTop ℝ) ≤ minD ∧
          ∀ p ∈ l, haversineDistance point n.coord ≤
            haversineDistance point p.2.coord) := by
  induction l with
  | nil =>
    intro nearest minD hinv n h
    simp only [findNearestGo] at h
    exact ⟨Or.inl h, (hinv n h).ge, by simp⟩
  | cons p rest ih =>
    obtain ⟨k, nd⟩ := p
    intro nearest minD hinv n h
    simp only [findNearestGo] at h
    rw [if_neg (by simp)] at h
    by_cases hlt :
        ((haversineDistance point nd.coord : ℝ) : WithTop ℝ) < minD
    · rw [if_pos ⟨hlt, le_top⟩] at h
      obtain ⟨hmem, hle, hall⟩ := ih (some nd) _
        (by intro m hm; injection hm with hm; rw [hm]) n h
      refine ⟨Or.inr ?_, le_trans hle (le_of_lt hlt), ?_⟩
      · rcases hmem with h0 | h1
        · exact ⟨(k, nd), List.mem_cons_self (k, nd) rest,
            Option.some_injective _ h0⟩
        · obtain ⟨q, hq, hq2⟩ := h1
          exact ⟨q, List.mem_cons_of_mem (k, nd) hq, hq2⟩
      · intro q hq
        rcases List.mem_cons.mp hq with rfl | hq'
        · exact WithTop.coe_le_coe.mp hle
        · exact hall q hq'
    · rw [if_neg (by intro hc; exact hlt hc.1)] at h
      obtain ⟨hmem, hle, hall⟩ := ih nearest minD hinv n h
      refine ⟨?_, hle, ?_⟩
      · rcases hmem with h0 | h1
        · exact Or.inl h0
        · obtain ⟨q, hq, hq2⟩ := h1
          exact Or.inr ⟨q, List.mem_cons_of_mem (k, nd) hq, hq2⟩
      · intro q hq
        rcases List.mem_cons.mp hq with rfl | hq'
        · exact WithTop.coe_le_coe.mp (le_trans hle (not_lt.mp hlt))
        · exact hall q hq'

/-- Once the scan worker holds a candidate it never returns `none`: every
branch keeps either the old or a new candidate. -/
theorem findNearestGo_isSome (point : Coord) :
    ∀ (l : List (String × Node)) (m : Node) (minD : WithTop ℝ),
      ∃ n, findNearestGo point ⊤ [] l (some m) minD = some n := by
  intro l
  induction l with
  | nil =>
    intro m minD
    exact ⟨m, rfl⟩
  | cons p rest ih =>
    obtain ⟨k, nd⟩ := p
    intro m minD
    simp only [findNearestGo]
    rw [if_neg (by simp)]
    by_cases hlt :
        ((haversineDistance point nd.coord : ℝ) : WithTop ℝ) < minD
    · rw [if_pos ⟨hlt, le_top⟩]
      exact ih nd _
    · rw [if_neg (fun hc => hlt hc.1)]
      exact ih m minD

/-- C8 (amended): `findNearestNode` is always called with only its first
two arguments, so neither the blocked-node overlay nor a radius plays any
role in resolution: whenever it returns a node, that node is a graph node
whose great-circle distance to the query point is minimal among *all*
nodes, blocked ones included; and on any non-empty node map it does
return a node -- the infinite default radius excludes nothing, so
resolution never fails over to the `null` branch. -/
theorem C8_amended (nodes : List (String × Node)) (point : Coord) :
    (∀ n, findNearestNode nodes point = some n →
      (∃ p ∈ nodes, p.2 = n) ∧
        ∀ p ∈ nodes, haversineDistance point n.coord ≤
          haversineDistance point p.2.coord) ∧
    (nodes ≠ [] → ∃ n, findNearestNode nodes point = some n) := by
  constructor
  · intro n h
    obtain ⟨hmem, _, hall⟩ :=
      findNearestGo_min point nodes none ⊤ (by intro m hm; cases hm) n h
    refine ⟨?_, hall⟩
    rcases hmem with h0 | h1
    · cases h0
    · exact h1
  · intro hne
    cases nodes with
    | nil => exact absurd rfl hne
    | cons p rest =>
      obtain ⟨k, nd⟩ := p
      unfold findNearestNode
      simp only [findNearestGo]
      rw [if_neg (by simp)]
      rw [if_pos ⟨WithTop.coe_lt_top _, le_top⟩]
      exact findNearestGo_isSome point rest nd _

/-- Witness for `C8_amended` at the blocked start node of `g8`. -/
theorem C8_witness :
    ((∃ p ∈ g8.nodes, p.2 = (⟨"A", 0, 0⟩ : Node)) ∧
      ∀ p ∈ g8.nodes, haversineDistance ⟨0, 0⟩ (Node.coord ⟨"A", 0, 0⟩) ≤
        haversineDistance ⟨0, 0⟩ p.2.coord) ∧
    (∃ n, findNearestNode g8.nodes ⟨0, 0⟩ = some n) :=
  ⟨(C8_amended g8.nodes ⟨0, 0⟩).1 ⟨"A", 0, 0⟩ g8_resolve_start,
   (C8_amended g8.nodes ⟨0, 0⟩).2 (by simp [g8])⟩

/-! ### Claim C4 -/

/-- C4 counterexample: on the concrete disconnected graph `gDis`
(`isGraphConnected gDis = false`), Bellman-Ford and GBFS do not fail fast
with a connectivity error -- both run their search to completion and return
a successful result, so they perform no connectivity precondition check. -/
theorem C4_counterexample :
    isGraphConnected gDis = false ∧
    bellmanFordPathfinding gDis ⟨0, 0⟩ ⟨0, 180⟩ =
      some (.ok
        { path := [(0, 0), (180, 0)]
          distance := 1 / 1000
          visitedNodes := [(0, 0), (180, 0)]
          nodesVisited := 2
          edgesExplored := 6
          pathNodeCount := 2 }) ∧
    gbfsPathfinding gDis ⟨0, 0⟩ ⟨0, 180⟩ =
      some (.ok
        { path := [(0, 0), (180, 0)]
          distance := 1 / 1000
          visitedNodes := [(0, 0), (0, 0), (180, 0)]
          nodesVisited := 2
          edgesExplored := 1
          pathNodeCount := 2 }) :=
  ⟨gDis_disconnected, bf_gDis_run, gbfs_gDis_run⟩

/-- C4 (amended): only the Dijkstra/A* entry point checks
`isGraphConnected`; whenever the check fails it returns the connectivity
error without running the search (for every start/goal pair and algorithm
id).  Bellman-Ford and GBFS perform no such precondition check. -/
theorem C4_amended (g : Graph) (s t : Coord) (alg : String)
    (h : isGraphConnected g = false) :
    dijkstraPathfinding g s t alg = some (.error .notConnected) ∧
    aStarPathfinding g s t = some (.error .notConnected) := by
  constructor <;> simp [dijkstraPathfinding, aStarPathfinding, h]

/-- Witness for `C4_amended` at the concrete disconnected graph `gDis`. -/
theorem C4_witness :
    dijkstraPathfinding gDis ⟨0, 0⟩ ⟨0, 180⟩ "dijkstra" =
      some (.error .notConnected) ∧
    aStarPathfinding gDis ⟨0, 0⟩ ⟨0, 180⟩ = some (.error .notConnected) :=
  C4_amended gDis ⟨0, 0⟩ ⟨0, 180⟩ "dijkstra" (by rfl)

/-! ### Claim C1 -/

/-- C1: on the connected graph `g1` the resolved goal `B` is never reached
from the resolved start `A` (the only edge runs `B → A`), yet
`dijkstraPathfinding` returns a successful result -- a one-node "path"
holding just the goal's coordinates with distance `0` -- instead of the
no-path error: the `path.length === 0` guard is dead code because the
reconstruction always unshifts the goal node itself. -/
theorem C1_unreached_goal_returns_ok :
    isGraphConnected g1 = true ∧
    dijkstraPathfinding g1 ⟨0, 0⟩ ⟨0, 180⟩ "dijkstra" =
      some (.ok
        { path := [(180, 0)]
          distance := 0
          visitedNodes := [(0, 0)]
          nodesVisited := 1
          edgesExplored := 0
          pathNodeCount := 1 }) :=
  ⟨g1_connected, dijk_g1_run⟩

end Engine